import Mathlib

/-!
Verification development for the CodeAlly task-planning engine
(`code_ally/agent/task_planner.py` and `code_ally/agent/tool_manager.py`).

The Python code works on JSON-like dictionaries.  We embed that value
domain as the inductive type `Value`, Python dictionaries as association
lists (`List (String × Value)`) with Python's insertion-order update
semantics, and the two stateful classes (`TaskPlanner`, `ToolManager`)
as explicit state-passing functions.  External collaborators (tool
capabilities, the trust/permission gate) are oracles supplied as
function parameters, exactly along the interface the source calls.

Conventions of the embedding:
* a Python exception is an `Except String` error value carrying the
  message; wall-clock timestamps and UI rendering are omitted (they do
  not affect any data the spec talks about);
* plan/task dictionaries are represented structurally: keys the
  validator requires (`id`, `tool_name`, `name`, `description`) are
  plain fields, optional keys are `Option` fields (key absent = `none`).
-/

/-- The JSON-like value domain the Python code manipulates.
Dictionaries are insertion-ordered association lists, as in Python. -/
inductive Value where
  | str (s : String)
  | int (n : Int)
  | bool (b : Bool)
  | null
  | list (items : List Value)
  | dict (entries : List (String × Value))
deriving Repr

/-- Python `d[k]` / `k in d` lookup on an association-list dictionary
(first match; the dictionaries built by the code have unique keys). -/
def lookupA {α : Type} : List (String × α) → String → Option α
  | [], _ => Option.none
  | (k1, v) :: rest, k => if k1 == k then some v else lookupA rest k

/-- Python `d[k] = v`: replace in place if the key exists, else append. -/
def insertA {α : Type} : List (String × α) → String → α → List (String × α)
  | [], k, v => [(k, v)]
  | (k1, v1) :: rest, k, v =>
      if k1 == k then (k, v) :: rest else (k1, v1) :: insertA rest k v

/-- Python truthiness (`if x:`) on the embedded value domain. -/
def pyTruthy : Value → Bool
  | .str s => !(s == "")
  | .int n => !(n == 0)
  | .bool b => b
  | .null => false
  | .list l => !l.isEmpty
  | .dict d => !d.isEmpty

mutual

/-- Python `==` on the embedded value domain.  Booleans compare equal to
the integers 0/1 as in Python.  Container comparison is element-wise in
order; for dictionaries this is an order-sensitive approximation of
Python's order-insensitive dict equality (exact on the scalar values
the planner's conditions compare). -/
def pyEq : Value → Value → Bool
  | .str a, .str b => a == b
  | .int a, .int b => a == b
  | .bool a, .bool b => a == b
  | .int a, .bool b => a == (if b then (1 : Int) else 0)
  | .bool a, .int b => (if a then (1 : Int) else 0) == b
  | .null, .null => true
  | .list a, .list b => pyEqList a b
  | .dict a, .dict b => pyEqDict a b
  | _, _ => false

/-- Element-wise Python `==` on lists. -/
def pyEqList : List Value → List Value → Bool
  | [], [] => true
  | a :: as1, b :: bs1 => pyEq a b && pyEqList as1 bs1
  | _, _ => false

/-- Entry-wise Python `==` on dictionary association lists. -/
def pyEqDict : List (String × Value) → List (String × Value) → Bool
  | [], [] => true
  | (k1, a) :: as1, (k2, b) :: bs1 => k1 == k2 && pyEq a b && pyEqDict as1 bs1
  | _, _ => false

end

/-- CPython `repr` of a string: single-quoted with backslash escapes
(approximation: always single-quoted; enough for the value domain the
claims exercise, where container stringification is never reached). -/
def strRepr (s : String) : String :=
  "\x27" ++ String.join (s.data.map fun c =>
    if c == '\\' then "\\\\"
    else if c == '\x27' then "\\\x27"
    else if c == '\n' then "\\n"
    else if c == '\t' then "\\t"
    else if c == '\r' then "\\r"
    else String.singleton c) ++ "\x27"

mutual

/-- CPython `repr` on the value domain. -/
def pyRepr : Value → String
  | .str s => strRepr s
  | .int n => toString n
  | .bool b => if b then "True" else "False"
  | .null => "None"
  | .list items => "[" ++ String.intercalate ", " (pyReprList items) ++ "]"
  | .dict entries => "\x7b" ++ String.intercalate ", " (pyReprDict entries) ++ "\x7d"

/-- Per-element `repr` of a list. -/
def pyReprList : List Value → List String
  | [] => []
  | v :: vs => pyRepr v :: pyReprList vs

/-- Per-entry `repr` of a dictionary. -/
def pyReprDict : List (String × Value) → List String
  | [] => []
  | (k, v) :: rest => (strRepr k ++ ": " ++ pyRepr v) :: pyReprDict rest

end

/-- Python `str()` on the value domain. -/
def pyStr : Value → String
  | .str s => s
  | v => pyRepr v

/-- JSON string escaping used by `json.dumps` (basic escapes; the claims
never stringify exotic characters). -/
def jsonEscape (s : String) : String :=
  "\"" ++ String.join (s.data.map fun c =>
    if c == '\\' then "\\\\"
    else if c == '"' then "\\\""
    else if c == '\n' then "\\n"
    else if c == '\t' then "\\t"
    else if c == '\r' then "\\r"
    else String.singleton c) ++ "\""

mutual

/-- Models `json.dumps` on the value domain (default separators). -/
def jsonDumps : Value → String
  | .str s => jsonEscape s
  | .int n => toString n
  | .bool b => if b then "true" else "false"
  | .null => "null"
  | .list items => "[" ++ String.intercalate ", " (jsonDumpsList items) ++ "]"
  | .dict entries => "\x7b" ++ String.intercalate ", " (jsonDumpsDict entries) ++ "\x7d"

/-- Per-element `json.dumps` of a list. -/
def jsonDumpsList : List Value → List String
  | [] => []
  | v :: vs => jsonDumps v :: jsonDumpsList vs

/-- Per-entry `json.dumps` of a dictionary. -/
def jsonDumpsDict : List (String × Value) → List String
  | [] => []
  | (k, v) :: rest => (jsonEscape k ++ ": " ++ jsonDumps v) :: jsonDumpsDict rest

end

/-- Whether `pat` is a prefix of the character list. -/
def charsPrefix : List Char → List Char → Bool
  | [], _ => true
  | _ :: _, [] => false
  | p :: ps, c :: cs => p == c && charsPrefix ps cs

/-- Python `s.replace(pat, rep)` on character lists: all occurrences,
left to right, non-overlapping.  The first argument counts characters
of a just-matched pattern still to be consumed (structural recursion on
the list).  An empty pattern is treated as a no-op (Python's semantics
differ there; the patterns used — placeholders and the newline — are
never empty). -/
def replaceSkip (pat rep : List Char) : Nat → List Char → List Char
  | Nat.succ n, _ :: cs => replaceSkip pat rep n cs
  | _, [] => []
  | 0, c :: cs =>
      if charsPrefix pat (c :: cs) && !pat.isEmpty then
        rep ++ replaceSkip pat rep (pat.length - 1) cs
      else c :: replaceSkip pat rep 0 cs

/-- Python `s.replace(pat, rep)` on strings. -/
def pyReplace (s pat rep : String) : String :=
  String.mk (replaceSkip pat.data rep.data 0 s.data)

/-- Whether `pat` occurs in the character list (Python `pat in s`). -/
def containsChars (pat : List Char) : List Char → Bool
  | [] => pat == []
  | c :: cs => charsPrefix pat (c :: cs) || containsChars pat cs

/-- Python substring containment `pat in s`. -/
def strContains (s pat : String) : Bool :=
  containsChars pat.data s.data

/-- Python `s.split(sep)` on character lists for a non-empty separator
(an empty separator raises in Python and is never used here).  The
first `Nat` counts separator characters still to be consumed. -/
def splitSkip (sep : List Char) : Nat → List Char → List (List Char)
  | Nat.succ n, _ :: cs => splitSkip sep n cs
  | _, [] => [[]]
  | 0, c :: cs =>
      if charsPrefix sep (c :: cs) && !sep.isEmpty then
        [] :: splitSkip sep (sep.length - 1) cs
      else
        match splitSkip sep 0 cs with
        | [] => [[c]]
        | g :: gs => (c :: g) :: gs

/-- Python `s.split(sep)` on strings. -/
def pySplit (s sep : String) : List String :=
  (splitSkip sep.data 0 s.data).map (fun l => String.mk l)

/-- One template-variable definition (`template_vars` entry in a task).
Models the Python dictionary: `vtype` is `var_def.get("type")`,
`task_id` is `var_def["task_id"]` (the data model requires it for
`task_result` variables, and the source reads it unconditionally in
that branch), `field`/`dflt`/`value` model the optional keys
`"field"`/`"default"`/`"value"`. -/
structure TemplateVar where
  vtype : Option String
  task_id : String
  field : Option String
  dflt : Option Value
  value : Option Value
deriving Repr

/-- Navigation of a dot-separated field path into a task result, as in
the `for field in field_path` loop: `some v` when every step finds a
dictionary containing the key, `none` as soon as a step misses (the
source then sets the default and breaks). -/
def navigatePath : List String → Value → Option Value
  | [], v => some v
  | f :: rest, v =>
      match v with
      | .dict d =>
          match lookupA d f with
          | some v1 => navigatePath rest v1
          | Option.none => Option.none
      | _ => Option.none

/-- One iteration of the `for var_name, var_def in template_vars.items()`
loop of `_process_template_vars` on a top-level (or dict-nested) string
value: full resolution rules. -/
def applyTemplateVar (results : List (String × Value)) (acc : String)
    (nm : String) (tv : TemplateVar) : String :=
  let placeholder := "$\x7b" ++ nm ++ "\x7d"
  if strContains acc placeholder then
    if tv.vtype == some "task_result" then
      match lookupA results tv.task_id with
      | some resultValue =>
          let replacement :=
            match tv.field with
            | some f =>
                let fieldValue :=
                  (navigatePath (pySplit f ".") resultValue).getD
                    (tv.dflt.getD (Value.str ""))
                pyReplace (pyStr fieldValue) "\n" ""
            | Option.none =>
                match resultValue with
                | Value.dict d => jsonDumps (Value.dict d)
                | v => pyStr v
          pyReplace acc placeholder replacement
      | Option.none =>
          pyReplace acc placeholder (pyStr (tv.dflt.getD (Value.str "")))
    else if tv.vtype == some "static" then
      pyReplace acc placeholder (pyStr (tv.value.getD (Value.str "")))
    else acc
  else acc

/-- The template-variable loop applied to a string-valued argument. -/
def processString (tvs : List (String × TemplateVar))
    (results : List (String × Value)) (s : String) : String :=
  tvs.foldl (fun acc p => applyTemplateVar results acc p.1 p.2) s

/-- One iteration of the template-variable loop on a string item inside
a list-valued argument: the source's "simplified for brevity" branch,
which substitutes `str(var_def.get("value", var_def.get("default", "")))`
regardless of the variable's type. -/
def applyTemplateVarListItem (acc : String) (nm : String)
    (tv : TemplateVar) : String :=
  let placeholder := "$\x7b" ++ nm ++ "\x7d"
  if strContains acc placeholder then
    pyReplace acc placeholder (pyStr (tv.value.getD (tv.dflt.getD (Value.str ""))))
  else acc

/-- The template-variable loop applied to a string item of a list. -/
def processListItemString (tvs : List (String × TemplateVar))
    (s : String) : String :=
  tvs.foldl (fun acc p => applyTemplateVarListItem acc p.1 p.2) s

mutual

/-- The per-value dispatch of the `for key, value in arguments.items()`
loop body of `_process_template_vars`: strings get the full rules,
nested dictionaries recurse, lists are processed item-wise, every other
value type passes through unchanged. -/
def processArgValue (tvs : List (String × TemplateVar))
    (results : List (String × Value)) : Value → Value
  | Value.str s => Value.str (processString tvs results s)
  | Value.dict d => Value.dict (processTemplateVars tvs results d)
  | Value.list items => Value.list (processListItems tvs results items)
  | v => v

/-- Models `TaskPlanner._process_template_vars`: rewrite every argument value
via `processArgValue`, preserving keys and order. -/
def processTemplateVars (tvs : List (String × TemplateVar))
    (results : List (String × Value)) :
    List (String × Value) → List (String × Value)
  | [] => []
  | (k, v) :: rest =>
      (k, processArgValue tvs results v) :: processTemplateVars tvs results rest

/-- The `for item in value` loop over a list-valued argument: string
items get the simplified substitution, dictionary items recurse with the
full rules, other items (including nested lists) pass through. -/
def processListItems (tvs : List (String × TemplateVar))
    (results : List (String × Value)) : List Value → List Value
  | [] => []
  | Value.str s :: rest =>
      Value.str (processListItemString tvs s) :: processListItems tvs results rest
  | Value.dict d :: rest =>
      Value.dict (processTemplateVars tvs results d) :: processListItems tvs results rest
  | v :: rest => v :: processListItems tvs results rest

end

/-! ## Tool Execution Manager (`tool_manager.py`) -/

/-- One registered tool capability: `requires_confirmation` flag and the
`execute(**arguments)` call, whose raised exception (if any) is the
`Except.error` message, and whose returned result mapping is `Except.ok`. -/
structure ToolCap where
  requires_confirmation : Bool
  exec : List (String × Value) → Except String (List (String × Value))

/-- The trust/permission gate (external collaborator).  `present` models
`trust_manager` being non-`None`; `promptParallel` is the outcome of the
single batched `prompt_for_parallel_operations` interaction; a
`PermissionDeniedError` raised by `prompt_for_permission` is the
`Except.error` case. -/
structure TrustOracle where
  isTrusted : String → Value → Bool
  promptForPermission : String → Value → Except Unit Bool
  promptParallel : Bool
  present : Bool

/-- Mutable state of `ToolManager`: the bounded cross-turn history, the
turn-scoped call list (reset by the owning agent, not the planner), and
an instrumentation log of actual capability invocations (a call to
`tool.execute` appends one entry; the Python has no such field, it is
the observable "the capability was invoked"). -/
structure TMState where
  recent : List (String × List (String × Value))
  currentTurn : List (String × List (String × Value))
  invocations : List (String × List (String × Value))
deriving Repr

/-- The constant `self.max_recent_calls = 5`. -/
def maxRecentCalls : Nat := 5

/-- One (key, value) insertion step of Python `sorted` on dict items
(tuples are ordered by their first component; keys are unique so the
value components are never compared). -/
def insertSorted (p : String × Value) :
    List (String × Value) → List (String × Value)
  | [] => [p]
  | q :: rest => if p.1 < q.1 then p :: q :: rest else q :: insertSorted p rest

/-- Models `tuple(sorted(arguments.items()))`. -/
def sortArgs (args : List (String × Value)) : List (String × Value) :=
  args.foldl (fun acc p => insertSorted p acc) []

/-- The redundancy key of a call: `(tool_name, tuple(sorted(arguments.items())))`. -/
def sortedCallKey (toolName : String) (args : List (String × Value)) :
    String × List (String × Value) :=
  (toolName, sortArgs args)

/-- Python tuple `==` on lists of (key, value) pairs. -/
def pairListPyEq : List (String × Value) → List (String × Value) → Bool
  | [], [] => true
  | (k1, v1) :: r1, (k2, v2) :: r2 => k1 == k2 && pyEq v1 v2 && pairListPyEq r1 r2
  | _, _ => false

/-- Python `==` on two call keys (string equality on the name, tuple
equality with Python `==` on the argument pairs). -/
def callKeyEq (a b : String × List (String × Value)) : Bool :=
  a.1 == b.1 && pairListPyEq a.2 b.2

/-- Python `current_call in self.current_turn_tool_calls`. -/
def containsCall (l : List (String × List (String × Value)))
    (k : String × List (String × Value)) : Bool :=
  l.any (fun q => callKeyEq k q)

/-- Models `ToolManager._is_redundant_call`. -/
def isRedundantCall (st : TMState) (toolName : String)
    (args : List (String × Value)) : Bool :=
  containsCall st.currentTurn (sortedCallKey toolName args)

/-- Models `ToolManager._record_tool_call`: append to both lists and trim the
cross-turn history to the last `max_recent_calls` entries. -/
def recordToolCall (st : TMState) (toolName : String)
    (args : List (String × Value)) : TMState :=
  let k := sortedCallKey toolName args
  let recent := st.recent ++ [k]
  { st with
    recent := if recent.length > maxRecentCalls then
        recent.drop (recent.length - maxRecentCalls) else recent,
    currentTurn := st.currentTurn ++ [k] }

/-- Models `ToolManager._create_error_result`. -/
def errorResult (msg : String) : List (String × Value) :=
  [("success", Value.bool false), ("error", Value.str msg)]

/-- The redundancy error message of `_handle_redundant_call`, with the
context-check suffix appended when `check_context_msg` is set. -/
def redundantMsg (toolName : String) (checkContextMsg : Bool) : String :=
  "Identical " ++ toolName ++ " call was already executed in this conversation turn." ++
    (if checkContextMsg then " Please check your context for the previous result." else "")

/-- Models `ToolManager._get_permission_path`: the whole argument mapping for a
`bash` command, else the first string argument named `path`, `file_path`
or `directory`, else `None`. -/
def getPermissionPath (toolName : String)
    (args : List (String × Value)) : Value :=
  if toolName == "bash" && (lookupA args "command").isSome then
    Value.dict args
  else
    match args.find? (fun pr =>
        (match pr.2 with | Value.str _ => true | _ => false) &&
        (pr.1 == "path" || pr.1 == "file_path" || pr.1 == "directory")) with
    | some pr => pr.2
    | Option.none => Value.null

/-- Models `ToolManager._perform_tool_execution` given the registry entry the
caller resolved (the source refetches `self.tools[tool_name]`, which all
call sites have already checked).  The capability invocation is logged;
a raised exception is caught and converted to an error result — note the
return value is always `Except.ok`: nothing propagates. -/
def performToolExecution (tool : ToolCap) (st : TMState)
    (toolName : String) (args : List (String × Value)) :
    Except Unit (List (String × Value)) × TMState :=
  let st1 := { st with invocations := st.invocations ++ [(toolName, args)] }
  match tool.exec args with
  | .ok r => (.ok r, st1)
  | .error m => (.ok (errorResult ("Error executing " ++ toolName ++ ": " ++ m)), st1)

/-- Models `ToolManager.execute_tool`: validity check, redundancy suppression,
call recording, permission gating (skipped when pre-approved), then
dispatch.  A `PermissionDeniedError` raised by the gate propagates as
`Except.error`. -/
def executeTool (tools : List (String × ToolCap)) (tr : TrustOracle)
    (st : TMState) (toolName : String) (args : List (String × Value))
    (checkContextMsg preApproved : Bool) :
    Except Unit (List (String × Value)) × TMState :=
  match lookupA tools toolName with
  | Option.none => (.ok (errorResult ("Unknown tool: " ++ toolName)), st)
  | some tool =>
    if isRedundantCall st toolName args then
      (.ok (errorResult (redundantMsg toolName checkContextMsg)), st)
    else
      let st1 := recordToolCall st toolName args
      if tool.requires_confirmation && !preApproved then
        let path := getPermissionPath toolName args
        if tr.isTrusted toolName path then
          performToolExecution tool st1 toolName args
        else
          match tr.promptForPermission toolName path with
          | .error _ => (.error (), st1)
          | .ok false => (.ok (errorResult ("Permission denied for " ++ toolName)), st1)
          | .ok true => performToolExecution tool st1 toolName args
      else
        performToolExecution tool st1 toolName args

/-! ## Task Planner data model (`task_planner.py`) -/

/-- A task's `condition` dictionary.  `ctype` is `condition["type"]`
(present in every validated plan); the other keys are optional. -/
structure Condition where
  ctype : String
  task_id : Option String
  field : Option String
  op : Option String
  value : Option Value
deriving Repr

/-- One task of a plan.  `id` and `tool_name` are the keys the validator
requires; the rest model the optional dictionary keys. -/
structure TaskSpec where
  id : String
  tool_name : String
  description : Option String
  arguments : Option (List (String × Value))
  depends_on : Option (List String)
  condition : Option Condition
  template_vars : Option (List (String × TemplateVar))
deriving Repr

/-- A task plan.  `name` and `description` are required by the
validator; `stop_on_failure` is `plan.get("stop_on_failure", False)`. -/
structure Plan where
  name : String
  description : String
  stop_on_failure : Bool
  tasks : List TaskSpec
deriving Repr

/-- The declared task ids of a task list, in order. -/
def idsOf (ts : List TaskSpec) : List String := ts.map (fun t => t.id)

/-- The `tasks_by_id` dictionary (Python dict comprehension: a later
task with a duplicate id overwrites an earlier one). -/
def tasksById (ts : List TaskSpec) : List (String × TaskSpec) :=
  ts.foldl (fun acc t => insertA acc t.id t) []

/-! ## Plan validation (`TaskPlanner.validate_plan`)

The structural checks the dictionary embedding makes unrepresentable
(missing `id`/`tool_name`/`name`/`description` keys, non-dict
`arguments`, non-list `depends_on`, non-dict `condition`, missing
condition `type`) are exactly the source's type/presence guards; all
remaining checks are modelled below, in source order, failing fast with
the source's message. -/

/-- First loop of `validate_plan`: every task's tool must be registered. -/
def checkTasks (tools : List (String × ToolCap)) : List TaskSpec → Option String
  | [] => Option.none
  | t :: rest =>
      if (lookupA tools t.tool_name).isNone then
        some ("Task \x27" ++ t.id ++ "\x27 references unknown tool \x27" ++
          t.tool_name ++ "\x27")
      else checkTasks tools rest

/-- Second loop: every `depends_on` entry must be a declared task id. -/
def checkDeps (ids : List String) : List TaskSpec → Option String
  | [] => Option.none
  | t :: rest =>
      match t.depends_on with
      | some ds =>
          match ds.find? (fun d => !(ids.contains d)) with
          | some d =>
              some ("Task \x27" ++ t.id ++ "\x27 depends on unknown task \x27" ++
                d ++ "\x27")
          | Option.none => checkDeps ids rest
      | Option.none => checkDeps ids rest

/-- Third loop: conditions need a recognized type, and `task_result`
conditions a `task_id` naming a declared task. -/
def checkConds (ids : List String) : List TaskSpec → Option String
  | [] => Option.none
  | t :: rest =>
      match t.condition with
      | some c =>
          if c.ctype != "task_result" && c.ctype != "expression" then
            some ("Task \x27" ++ t.id ++ "\x27 has invalid condition type \x27" ++
              c.ctype ++ "\x27")
          else if c.ctype == "task_result" then
            match c.task_id with
            | Option.none =>
                some ("Task \x27" ++ t.id ++ "\x27 condition missing \x27task_id\x27 field")
            | some tid =>
                if !(ids.contains tid) then
                  some ("Task \x27" ++ t.id ++ "\x27 condition references unknown task \x27" ++
                    tid ++ "\x27")
                else checkConds ids rest
          else checkConds ids rest
      | Option.none => checkConds ids rest

/-- Fourth loop: the lightweight symmetric-pair cycle check (only direct
A↔B cycles). -/
def checkCycles (byId : List (String × TaskSpec)) : List TaskSpec → Option String
  | [] => Option.none
  | t :: rest =>
      match t.depends_on with
      | some ds =>
          match ds.find? (fun d =>
              match lookupA byId d with
              | some dt =>
                  match dt.depends_on with
                  | some ds2 => ds2.contains t.id
                  | Option.none => false
              | Option.none => false) with
          | some d =>
              some ("Circular dependency detected between tasks \x27" ++ t.id ++
                "\x27 and \x27" ++ d ++ "\x27")
          | Option.none => checkCycles byId rest
      | Option.none => checkCycles byId rest

/-- Models `TaskPlanner.validate_plan`: `none` means `(True, None)`, `some e`
means `(False, e)`. -/
def validatePlan (tools : List (String × ToolCap)) (p : Plan) : Option String :=
  if p.tasks.isEmpty then some "Plan contains no tasks"
  else
    match checkTasks tools p.tasks with
    | some e => some e
    | Option.none =>
        match checkDeps (idsOf p.tasks) p.tasks with
        | some e => some e
        | Option.none =>
            match checkConds (idsOf p.tasks) p.tasks with
            | some e => some e
            | Option.none => checkCycles (tasksById p.tasks) p.tasks

/-! ## Condition evaluation (`TaskPlanner._evaluate_condition`) -/

/-- Models `TaskPlanner._evaluate_condition`.  The `Except.error` case is the
`KeyError` raised when a `task_result` condition lacks `task_id`, or the
`AttributeError` of `.get` on a non-dictionary result (neither is
reachable from a validated plan); `expression` conditions always hold,
unknown types never do. -/
def evaluateCondition (c : Condition) (results : List (String × Value)) :
    Except String Bool :=
  if c.ctype == "task_result" then
    match c.task_id with
    | Option.none => .error "\x27task_id\x27"
    | some tid =>
        match lookupA results tid with
        | Option.none => .ok false
        | some taskResult =>
            match taskResult with
            | Value.dict d =>
                let field := c.field.getD "success"
                let expected := c.value.getD (Value.bool true)
                let actual := (lookupA d field).getD Value.null
                if c.op == some "not_equals" then .ok (!(pyEq actual expected))
                else .ok (pyEq actual expected)
            | _ => .error "\x27get\x27"
  else if c.ctype == "expression" then .ok true
  else .ok false

/-! ## Plan execution (`TaskPlanner.execute_plan`) -/

/-- One entry of `self.execution_history`, recorded exactly when a task
dispatches its tool (`timestamp` omitted).  `success` stores the value
`raw_result.get("success", False)`. -/
structure HistEntry where
  taskId : String
  toolName : String
  arguments : List (String × Value)
  success : Value
deriving Repr

/-- The accumulating state of the execution loop: the planner's local
`results`/`completed_tasks`/`failed_tasks`, the execution history, and
the tool manager's state threaded through `execute_tool` calls. -/
structure PState where
  results : List (String × Value)
  completed : List String
  failed : List String
  history : List HistEntry
  tm : TMState
deriving Repr

/-- The loop state at the start of a plan run (`execution_history` is
reset; the redundancy caches are the tool manager's, not reset). -/
def initState (tm : TMState) : PState :=
  { results := [], completed := [], failed := [], history := [], tm := tm }

/-- The record stored for a task whose dependencies are unmet. -/
def depFailRecord : Value :=
  Value.dict [("success", Value.bool false),
              ("error", Value.str "Dependencies not met"),
              ("skipped", Value.bool true)]

/-- The record stored for a task whose condition evaluates false. -/
def condSkipRecord : Value :=
  Value.dict [("success", Value.bool true),
              ("skipped", Value.bool true),
              ("reason", Value.str "Condition not met")]

/-- The dependency check of the loop: every id in `depends_on` must be
in the completed list and not in the failed list. -/
def depsMet (s : PState) (deps : List String) : Bool :=
  deps.all (fun d => s.completed.contains d && !(s.failed.contains d))

/-- Outcome of processing one task: `next` continues the loop, `stop` is
the `break` under `stop_on_failure`, `exn` an exception propagating to
the `except` clause of `execute_plan`. -/
inductive StepOut where
  | next (s : PState)
  | stop (s : PState)
  | exn (msg : String) (s : PState)
deriving Repr

/-- The state carried by a step outcome. -/
def StepOut.state : StepOut → PState
  | .next s => s
  | .stop s => s
  | .exn _ s => s

/-- Argument resolution before dispatch: template substitution against
the accumulated results when the task declares `template_vars`. -/
def resolveArgs (task : TaskSpec) (results : List (String × Value)) :
    List (String × Value) :=
  let args0 := task.arguments.getD []
  match task.template_vars with
  | some tvs => processTemplateVars tvs results args0
  | Option.none => args0

/-- The dispatch part of the loop body: resolve arguments, call
`execute_tool(tool_name, arguments, True, client_type, batch_id)` (a
non-empty `batch_id` makes `pre_approved` truthy), store the raw result,
record history, and update the completed/failed lists — breaking on
failure when `stop_on_failure` is set.  A `PermissionDeniedError`
escaping `execute_tool` would be caught by the planner's blanket
`except` (unreachable when pre-approved). -/
def dispatchTask (tools : List (String × ToolCap)) (tr : TrustOracle)
    (stopOnFailure : Bool) (s : PState) (task : TaskSpec) : StepOut :=
  let args := resolveArgs task s.results
  match executeTool tools tr s.tm task.tool_name args true true with
  | (.error _, tm1) => .exn "PermissionDeniedError" { s with tm := tm1 }
  | (.ok raw, tm1) =>
      let successVal := (lookupA raw "success").getD (Value.bool false)
      let s1 := { s with
        tm := tm1,
        results := insertA s.results task.id (Value.dict raw),
        history := s.history ++
          [({ taskId := task.id, toolName := task.tool_name,
              arguments := args, success := successVal } : HistEntry)] }
      if pyTruthy successVal then
        .next { s1 with completed := s1.completed ++ [task.id] }
      else
        let s2 := { s1 with failed := s1.failed ++ [task.id] }
        if stopOnFailure then .stop s2 else .next s2

/-- The body of `for task in plan["tasks"]`: dependency check (failing
marks the task failed without stopping the loop), condition check
(a false condition records a non-failing skip), then dispatch. -/
def execTask (tools : List (String × ToolCap)) (tr : TrustOracle)
    (stopOnFailure : Bool) (s : PState) (task : TaskSpec) : StepOut :=
  let depFailed :=
    match task.depends_on with
    | some deps => !(depsMet s deps)
    | Option.none => false
  if depFailed then
    .next { s with
      failed := s.failed ++ [task.id],
      results := insertA s.results task.id depFailRecord }
  else
    match task.condition with
    | some c =>
        match evaluateCondition c s.results with
        | .error m => .exn m s
        | .ok false =>
            .next { s with
              results := insertA s.results task.id condSkipRecord,
              completed := s.completed ++ [task.id] }
        | .ok true => dispatchTask tools tr stopOnFailure s task
    | Option.none => dispatchTask tools tr stopOnFailure s task

/-- Outcome of the whole loop: `ok` fell off the end, `broke` hit the
`stop_on_failure` break, `exn` an exception reached `except Exception`. -/
inductive LoopOut where
  | ok (s : PState)
  | broke (s : PState)
  | exn (msg : String) (s : PState)
deriving Repr

/-- The state carried by a loop outcome. -/
def LoopOut.state : LoopOut → PState
  | .ok s => s
  | .broke s => s
  | .exn _ s => s

/-- The task loop of `execute_plan`. -/
def runTasks (tools : List (String × ToolCap)) (tr : TrustOracle)
    (stopOnFailure : Bool) (s : PState) : List TaskSpec → LoopOut
  | [] => .ok s
  | t :: ts =>
      match execTask tools tr stopOnFailure s t with
      | .next s1 => runTasks tools tr stopOnFailure s1 ts
      | .stop s1 => .broke s1
      | .exn m s1 => .exn m s1

/-! ## Permission pre-collection and batching -/

/-- One `(tool_name, path, description)` tuple of
`_collect_permission_operations`. -/
structure PermOp where
  toolName : String
  path : Value
  description : String
deriving Repr

/-- The tuple collected for one task requiring permission. -/
def permOpFor (t : TaskSpec) : PermOp :=
  let args := t.arguments.getD []
  if t.tool_name == "bash" && (lookupA args "command").isSome then
    { toolName := t.tool_name,
      path := Value.dict args,
      description := t.description.getD
        ("Execute command: " ++ pyStr ((lookupA args "command").getD Value.null)) }
  else
    match args.find? (fun pr =>
        (match pr.2 with | Value.str _ => true | _ => false) &&
        (pr.1 == "path" || pr.1 == "file_path")) with
    | some pr =>
        { toolName := t.tool_name, path := pr.2,
          description := t.description.getD ("Execute " ++ t.tool_name) }
    | Option.none =>
        { toolName := t.tool_name, path := Value.null,
          description := t.description.getD ("Execute " ++ t.tool_name) }

/-- Models `TaskPlanner._collect_permission_operations`: one tuple per task
whose tool is registered as requiring confirmation, in plan order. -/
def collectPermissionOperations (tools : List (String × ToolCap))
    (p : Plan) : List PermOp :=
  p.tasks.filterMap (fun t =>
    match lookupA tools t.tool_name with
    | some cap => if cap.requires_confirmation then some (permOpFor t) else Option.none
    | Option.none => Option.none)

/-- Models `TaskPlanner._request_plan_permissions`: trivially true with nothing
to ask, false without a trust manager, else the outcome of the single
batched `prompt_for_parallel_operations` interaction (the summary text
and batch id do not influence the boolean outcome). -/
def requestPlanPermissions (tr : TrustOracle) (ops : List PermOp) : Bool :=
  if ops.isEmpty then true
  else if !tr.present then false
  else tr.promptParallel

/-! ## The execution report -/

/-- The dictionary `execute_plan` returns (`execution_time`, a wall
clock reading, is omitted; `description` is present only in the
normal-completion report). -/
structure Report where
  success : Bool
  error : String
  plan_name : String
  description : Option String
  results : List (String × Value)
  completed_tasks : List String
  failed_tasks : List String
deriving Repr

/-- The value of `execute_plan`: the report, the planner's
`execution_history` after the call, and the tool manager state. -/
structure PlanOutcome where
  report : Report
  history : List HistEntry
  tm : TMState
deriving Repr

/-- The report of a run that reached the end of the loop (or broke out
of it): lines 400–409 of the source. -/
def normalReport (p : Plan) (s : PState) : Report :=
  { success := s.failed.isEmpty,
    error := if s.failed.isEmpty then "" else
      "Failed tasks: " ++ String.intercalate ", " s.failed,
    plan_name := p.name,
    description := some p.description,
    results := s.results,
    completed_tasks := s.completed,
    failed_tasks := s.failed }

/-- The report of a run aborted by an exception: the `except Exception`
clause, returning whatever had accumulated. -/
def exnReport (p : Plan) (m : String) (s : PState) : Report :=
  { success := false,
    error := "Error executing plan: " ++ m,
    plan_name := p.name,
    description := Option.none,
    results := s.results,
    completed_tasks := s.completed,
    failed_tasks := s.failed }

/-- Package a loop outcome as the plan's outcome. -/
def runOutcome (p : Plan) : LoopOut → PlanOutcome
  | .ok s => { report := normalReport p s, history := s.history, tm := s.tm }
  | .broke s => { report := normalReport p s, history := s.history, tm := s.tm }
  | .exn m s => { report := exnReport p m s, history := s.history, tm := s.tm }

/-- The report returned when validation fails. -/
def invalidReport (p : Plan) (e : String) : Report :=
  { success := false, error := "Invalid plan: " ++ e, plan_name := p.name,
    description := Option.none, results := [], completed_tasks := [],
    failed_tasks := [] }

/-- The report returned when the batched permission request is denied. -/
def permissionDeniedReport (p : Plan) : Report :=
  { success := false, error := "Permission denied for task plan operations",
    plan_name := p.name, description := Option.none, results := [],
    completed_tasks := [], failed_tasks := [] }

/-- Models `TaskPlanner.execute_plan`: reset history, validate, pre-collect and
batch-request permissions, then run the task loop. -/
def executePlan (tools : List (String × ToolCap)) (tr : TrustOracle)
    (tm0 : TMState) (p : Plan) : PlanOutcome :=
  match validatePlan tools p with
  | some e => { report := invalidReport p e, history := [], tm := tm0 }
  | Option.none =>
      let ops := collectPermissionOperations tools p
      if !ops.isEmpty && !(requestPlanPermissions tr ops) then
        { report := permissionDeniedReport p, history := [], tm := tm0 }
      else
        runOutcome p (runTasks tools tr p.stop_on_failure (initState tm0) p.tasks)

/-! ## Concrete fixtures used by witnesses and counterexamples -/

/-- A tool that succeeds with a bare `{"success": true}` result. -/
def fixOkTool : ToolCap :=
  { requires_confirmation := false,
    exec := fun _ => .ok [("success", Value.bool true)] }

/-- A tool that returns a failed result. -/
def fixFailTool : ToolCap :=
  { requires_confirmation := false,
    exec := fun _ => .ok [("success", Value.bool false), ("error", Value.str "boom")] }

/-- A tool whose `execute` raises. -/
def fixRaiseTool : ToolCap :=
  { requires_confirmation := false, exec := fun _ => .error "disk full" }

/-- A tool returning a result with a `count` field. -/
def fixCountTool : ToolCap :=
  { requires_confirmation := false,
    exec := fun _ => .ok [("count", Value.int 0), ("success", Value.bool true)] }

/-- A tool that requires confirmation. -/
def fixConfirmTool : ToolCap :=
  { requires_confirmation := true,
    exec := fun _ => .ok [("success", Value.bool true)] }

/-- A small registry. -/
def fixTools : List (String × ToolCap) :=
  [("t", fixOkTool), ("f", fixFailTool), ("r", fixRaiseTool),
   ("c", fixCountTool), ("w", fixConfirmTool), ("grep", fixOkTool)]

/-- A fully permissive trust oracle. -/
def fixTrust : TrustOracle :=
  { isTrusted := fun _ _ => true, promptForPermission := fun _ _ => .ok true,
    promptParallel := true, present := true }

/-- A trust oracle that denies the batched plan request. -/
def fixDenyTrust : TrustOracle :=
  { isTrusted := fun _ _ => true, promptForPermission := fun _ _ => .ok true,
    promptParallel := false, present := true }

/-- An empty tool-manager state (fresh conversation turn). -/
def tmEmpty : TMState := { recent := [], currentTurn := [], invocations := [] }

/-- A minimal task: an id and a tool, nothing optional. -/
def mkTask (i tool : String) : TaskSpec :=
  { id := i, tool_name := tool, description := Option.none,
    arguments := Option.none, depends_on := Option.none,
    condition := Option.none, template_vars := Option.none }

/-- C1 counterexample plan: `b` (declared first) depends on `a`
(declared second), with `stop_on_failure` set. -/
def c1Plan : Plan :=
  { name := "p", description := "d", stop_on_failure := true,
    tasks := [{ mkTask "b" "t" with depends_on := some ["a"] }, mkTask "a" "t"] }

/-- C1 amended-claim witness plan: `x` fails at tool dispatch, `c`
is declared after it, `stop_on_failure` set. -/
def c1wPlan : Plan :=
  { name := "p", description := "d", stop_on_failure := true,
    tasks := [mkTask "x" "f", mkTask "c" "t"] }

/-- C2 witness plan: like `c1Plan` without `stop_on_failure`. -/
def c2Plan : Plan :=
  { name := "p", description := "d", stop_on_failure := false,
    tasks := [{ mkTask "b" "t" with depends_on := some ["a"] }, mkTask "a" "t"] }

/-- The condition of the C3 scenario: `t1.count not_equals 0`. -/
def c3Cond : Condition :=
  { ctype := "task_result", task_id := some "t1", field := some "count",
    op := some "not_equals", value := some (Value.int 0) }

/-- C3 witness plan: `t1` produces `{count: 0, success: true}`, `t2`
is gated on `t1.count not_equals 0`. -/
def c3Plan : Plan :=
  { name := "p", description := "d", stop_on_failure := false,
    tasks := [mkTask "t1" "c", { mkTask "t2" "t" with condition := some c3Cond }] }

/-- The loop state after `c3Plan`'s first task ran. -/
def c3State : PState :=
  { results := [("t1", Value.dict [("count", Value.int 0), ("success", Value.bool true)])],
    completed := ["t1"], failed := [],
    history := [{ taskId := "t1", toolName := "c", arguments := [],
                  success := Value.bool true }],
    tm := { recent := [("c", [])], currentTurn := [("c", [])],
            invocations := [("c", [])] } }

/-- C6 counterexample plan: an empty task id and a duplicated task id. -/
def c6Plan : Plan :=
  { name := "p", description := "d", stop_on_failure := false,
    tasks := [mkTask "" "t", mkTask "a" "t", mkTask "a" "t"] }

/-- C8 witness plan: one task whose tool requires confirmation. -/
def c8Plan : Plan :=
  { name := "p", description := "d", stop_on_failure := false,
    tasks := [mkTask "w1" "w"] }

/-- The grep call arguments of the C5 scenario. -/
def c5Args : List (String × Value) := [("pattern", Value.str "x")]

/-- The tool-manager state after the first `grep` call of the C5
scenario (one recorded call, one capability invocation). -/
def c5St1 : TMState :=
  { recent := [("grep", c5Args)], currentTurn := [("grep", c5Args)],
    invocations := [("grep", c5Args)] }

/-- C4 failing input: a `task_result` variable with a field path and a
default, whose referenced task is present in the results. -/
def c4Tv : TemplateVar :=
  { vtype := some "task_result", task_id := "t1", field := some "out",
    dflt := some (Value.str "D"), value := Option.none }

/-- The prior results for the C4 failing input. -/
def c4Results : List (String × Value) :=
  [("t1", Value.dict [("out", Value.str "X"), ("success", Value.bool true)])]

/-- C7 witness variable: field path `a.b`. -/
def c7Tv : TemplateVar :=
  { vtype := some "task_result", task_id := "t1", field := some "a.b",
    dflt := some (Value.str "fb"), value := Option.none }

/-- C7 witness results: `{"a": {"b": "X"}}`. -/
def c7Results : List (String × Value) :=
  [("t1", Value.dict [("a", Value.dict [("b", Value.str "X")])])]

/-- C7 witness variable for the missing-path part: field `a.zz`. -/
def c7MissTv : TemplateVar :=
  { vtype := some "task_result", task_id := "t1", field := some "a.zz",
    dflt := some (Value.str "fb"), value := Option.none }

/-- C7 witness variable for the `$\x7bd\x7d/f.txt` scenario. -/
def c7DirTv : TemplateVar :=
  { vtype := some "task_result", task_id := "t1", field := some "output",
    dflt := some (Value.str "/tmp"), value := Option.none }

/-- C7 `$\x7bd\x7d/f.txt` scenario results: `t1` succeeded with `output
"/home/u"`. -/
def c7DirResults : List (String × Value) :=
  [("t1", Value.dict [("output", Value.str "/home/u"), ("success", Value.bool true)])]

/-- C10 witness variable: field `out` and no default. -/
def c10Tv : TemplateVar :=
  { vtype := some "task_result", task_id := "t1", field := some "out",
    dflt := Option.none, value := Option.none }

/-- C10 witness results: the referenced field value contains a newline. -/
def c10Results : List (String × Value) :=
  [("t1", Value.dict [("out", Value.str "a\nb")])]

/-- C10 static contrast variable: a static value containing a newline. -/
def c10StaticTv : TemplateVar :=
  { vtype := some "static", task_id := "t1", field := Option.none,
    dflt := Option.none, value := some (Value.str "a\nb") }

/-- C10 whole-result contrast variable: no field path. -/
def c10WholeTv : TemplateVar :=
  { vtype := some "task_result", task_id := "t1", field := Option.none,
    dflt := Option.none, value := Option.none }


/-- Frame relation between a post-step state and a pre-step state with
respect to one task id: other ids keep their `results` entry and their
membership in the completed/failed lists, new history entries carry the
task's id, and the completed/failed lists only grow. -/
def FrameOK (s1 s : PState) (tid : String) : Prop :=
  (∀ k, k ≠ tid → lookupA s1.results k = lookupA s.results k) ∧
  (∀ k, k ≠ tid → ((k ∈ s1.completed) ↔ (k ∈ s.completed))) ∧
  (∀ k, k ≠ tid → ((k ∈ s1.failed) ↔ (k ∈ s.failed))) ∧
  (∀ e, e ∈ s1.history → e ∈ s.history ∨ e.taskId = tid) ∧
  (∀ k, k ∈ s.completed → k ∈ s1.completed) ∧
  (∀ k, k ∈ s.failed → k ∈ s1.failed)

/-- Frame relation between a post-loop state and a pre-loop state with
respect to the list of processed task ids. -/
def LoopFrame (s1 s : PState) (ids : List String) : Prop :=
  (∀ k, k ∉ ids → lookupA s1.results k = lookupA s.results k) ∧
  (∀ k, k ∉ ids → ((k ∈ s1.completed) ↔ (k ∈ s.completed))) ∧
  (∀ k, k ∉ ids → ((k ∈ s1.failed) ↔ (k ∈ s.failed))) ∧
  (∀ e, e ∈ s1.history → e ∈ s.history ∨ e.taskId ∈ ids) ∧
  (∀ k, k ∈ s.completed → k ∈ s1.completed) ∧
  (∀ k, k ∈ s.failed → k ∈ s1.failed)

/-! ## Basic lemmas about the dictionary embedding and the loop -/

/-- Looking up the just-inserted key finds the new value. -/
theorem lookupA_insertA_self {α : Type} (d : List (String × α)) (k : String) (v : α) :
    lookupA (insertA d k v) k = some v := by
  induction d with
  | nil => simp [insertA, lookupA]
  | cons p rest ih =>
      obtain ⟨k1, v1⟩ := p
      by_cases h : k1 == k
      · simp [insertA, h, lookupA]
      · simp [insertA, h, lookupA, ih]

/-- Insertion does not disturb other keys. -/
theorem lookupA_insertA_ne {α : Type} (d : List (String × α)) (k k1 : String) (v : α)
    (h : k1 ≠ k) : lookupA (insertA d k v) k1 = lookupA d k1 := by
  induction d with
  | nil => simp [insertA, lookupA, Ne.symm h]
  | cons p rest ih =>
      obtain ⟨k2, v2⟩ := p
      by_cases h2 : k2 == k
      · have hk2 : k2 = k := by simpa using h2
        subst hk2
        simp [insertA, lookupA, Ne.symm h]
      · by_cases h3 : k2 == k1
        · simp [insertA, h2, lookupA, h3]
        · simp [insertA, h2, lookupA, h3, ih]

/-- The loop distributes over list append, stopping early on a break
or an exception. -/
theorem runTasks_append (tools : List (String × ToolCap)) (tr : TrustOracle)
    (stop : Bool) (pre rest : List TaskSpec) (s : PState) :
    runTasks tools tr stop s (pre ++ rest) =
      match runTasks tools tr stop s pre with
      | .ok s1 => runTasks tools tr stop s1 rest
      | .broke s1 => .broke s1
      | .exn m s1 => .exn m s1 := by
  induction pre generalizing s with
  | nil => simp [runTasks]
  | cons t ts ih =>
      simp only [List.cons_append, runTasks]
      cases execTask tools tr stop s t with
      | next s1 => exact ih s1
      | stop s1 => rfl
      | exn m s1 => rfl

/-- Reflexivity of `FrameOK`. -/
theorem frameOK_refl (s : PState) (tid : String) : FrameOK s s tid :=
  ⟨fun _ _ => rfl, fun _ _ => Iff.rfl, fun _ _ => Iff.rfl,
   fun _ he => Or.inl he, fun _ h => h, fun _ h => h⟩

/-- Any state built from `s` by at most inserting the task's result,
appending the task's id to the completed/failed lists, and appending a
history entry carrying the task's id, is in `FrameOK` with `s`. -/
theorem frameOK_gen (s : PState) (tid : String)
    (res1 : List (String × Value)) (comp1 fail1 : List String)
    (hist1 : List HistEntry) (tm1 : TMState)
    (hres : ∀ k, k ≠ tid → lookupA res1 k = lookupA s.results k)
    (hcomp : comp1 = s.completed ∨ comp1 = s.completed ++ [tid])
    (hfail : fail1 = s.failed ∨ fail1 = s.failed ++ [tid])
    (hhist : hist1 = s.history ∨
      ∃ e, e.taskId = tid ∧ hist1 = s.history ++ [e]) :
    FrameOK ⟨res1, comp1, fail1, hist1, tm1⟩ s tid := by
  refine ⟨hres, ?_, ?_, ?_, ?_, ?_⟩
  · intro k hk
    rcases hcomp with h | h <;> subst h
    · exact Iff.rfl
    · simp [List.mem_append, hk]
  · intro k hk
    rcases hfail with h | h <;> subst h
    · exact Iff.rfl
    · simp [List.mem_append, hk]
  · intro e he
    rcases hhist with h | ⟨e1, he1, h⟩ <;> subst h
    · exact Or.inl he
    · rcases List.mem_append.1 he with h | h
      · exact Or.inl h
      · simp at h
        subst h
        exact Or.inr he1
  · intro k hk
    rcases hcomp with h | h <;> subst h
    · exact hk
    · exact List.mem_append_left _ hk
  · intro k hk
    rcases hfail with h | h <;> subst h
    · exact hk
    · exact List.mem_append_left _ hk

/-- Frame property of the dispatch step. -/
theorem dispatchTask_frame (tools : List (String × ToolCap)) (tr : TrustOracle)
    (stop : Bool) (s : PState) (task : TaskSpec) :
    FrameOK (dispatchTask tools tr stop s task).state s task.id := by
  unfold dispatchTask
  cases hET : executeTool tools tr s.tm task.tool_name (resolveArgs task s.results)
      true true with
  | mk res tm1 =>
    cases res with
    | error e =>
        simp only [hET, StepOut.state]
        exact frameOK_gen s task.id _ _ _ _ _
          (fun _ _ => rfl) (Or.inl rfl) (Or.inl rfl) (Or.inl rfl)
    | ok raw =>
        by_cases hsv : pyTruthy ((lookupA raw "success").getD (Value.bool false))
        · simp only [hET, hsv, if_true, StepOut.state]
          exact frameOK_gen s task.id _ _ _ _ _
            (fun k hk => lookupA_insertA_ne _ _ _ _ hk)
            (Or.inr rfl) (Or.inl rfl)
            (Or.inr ⟨_, rfl, rfl⟩)
        · by_cases hstop : stop
          · simp only [hET, hsv, hstop, if_true, if_false, Bool.false_eq_true,
              StepOut.state]
            exact frameOK_gen s task.id _ _ _ _ _
              (fun k hk => lookupA_insertA_ne _ _ _ _ hk)
              (Or.inl rfl) (Or.inr rfl)
              (Or.inr ⟨_, rfl, rfl⟩)
          · simp only [hET, hsv, hstop, if_false, Bool.false_eq_true,
              StepOut.state]
            exact frameOK_gen s task.id _ _ _ _ _
              (fun k hk => lookupA_insertA_ne _ _ _ _ hk)
              (Or.inl rfl) (Or.inr rfl)
              (Or.inr ⟨_, rfl, rfl⟩)

/-- Frame property of one loop iteration. -/
theorem execTask_frame (tools : List (String × ToolCap)) (tr : TrustOracle)
    (stop : Bool) (s : PState) (task : TaskSpec) :
    FrameOK (execTask tools tr stop s task).state s task.id := by
  unfold execTask
  cases hdep : task.depends_on with
  | some deps =>
      by_cases hdm : depsMet s deps
      · simp only [hdep, hdm, Bool.not_true, if_false, Bool.false_eq_true]
        cases hcond : task.condition with
        | some c =>
            cases hev : evaluateCondition c s.results with
            | error m =>
                simp only [hcond, hev, StepOut.state]
                exact frameOK_refl s task.id
            | ok b =>
                cases b with
                | false =>
                    simp only [hcond, hev, StepOut.state]
                    exact frameOK_gen s task.id _ _ _ _ _
                      (fun k hk => lookupA_insertA_ne _ _ _ _ hk)
                      (Or.inr rfl) (Or.inl rfl) (Or.inl rfl)
                | true =>
                    simp only [hcond, hev]
                    exact dispatchTask_frame tools tr stop s task
        | none =>
            simp only [hcond]
            exact dispatchTask_frame tools tr stop s task
      · simp only [hdep, hdm, Bool.not_false, if_true, StepOut.state]
        exact frameOK_gen s task.id _ _ _ _ _
          (fun k hk => lookupA_insertA_ne _ _ _ _ hk)
          (Or.inl rfl) (Or.inr rfl) (Or.inl rfl)
  | none =>
      simp only [hdep, Bool.false_eq_true, if_false]
      cases hcond : task.condition with
      | some c =>
          cases hev : evaluateCondition c s.results with
          | error m =>
              simp only [hcond, hev, StepOut.state]
              exact frameOK_refl s task.id
          | ok b =>
              cases b with
              | false =>
                  simp only [hcond, hev, StepOut.state]
                  exact frameOK_gen s task.id _ _ _ _ _
                    (fun k hk => lookupA_insertA_ne _ _ _ _ hk)
                    (Or.inr rfl) (Or.inl rfl) (Or.inl rfl)
              | true =>
                  simp only [hcond, hev]
                  exact dispatchTask_frame tools tr stop s task
      | none =>
          simp only [hcond]
          exact dispatchTask_frame tools tr stop s task

/-- Reflexivity of `LoopFrame` over the empty id list. -/
theorem loopFrame_refl (s : PState) : LoopFrame s s [] :=
  ⟨fun _ _ => rfl, fun _ _ => Iff.rfl, fun _ _ => Iff.rfl,
   fun _ he => Or.inl he, fun _ h => h, fun _ h => h⟩

/-- A step frame followed by a loop frame is a loop frame over the
extended id list. -/
theorem loopFrame_comp (s2 s1 s : PState) (tid : String) (ids : List String)
    (h1 : FrameOK s1 s tid) (h2 : LoopFrame s2 s1 ids) :
    LoopFrame s2 s (tid :: ids) := by
  obtain ⟨r1, c1, f1, h1h, mc1, mf1⟩ := h1
  obtain ⟨r2, c2, f2, h2h, mc2, mf2⟩ := h2
  refine ⟨?_, ?_, ?_, ?_, ?_, ?_⟩
  · intro k hk
    simp only [List.mem_cons, not_or] at hk
    rw [r2 k hk.2, r1 k hk.1]
  · intro k hk
    simp only [List.mem_cons, not_or] at hk
    rw [c2 k hk.2, c1 k hk.1]
  · intro k hk
    simp only [List.mem_cons, not_or] at hk
    rw [f2 k hk.2, f1 k hk.1]
  · intro e he
    rcases h2h e he with h | h
    · rcases h1h e h with h3 | h3
      · exact Or.inl h3
      · exact Or.inr (by simp [h3])
    · exact Or.inr (by simp [h])
  · exact fun k hk => mc2 k (mc1 k hk)
  · exact fun k hk => mf2 k (mf1 k hk)

/-- A step frame alone is a loop frame over any id list starting with
the task's id. -/
theorem loopFrame_of_frameOK (s1 s : PState) (tid : String) (ids : List String)
    (h1 : FrameOK s1 s tid) : LoopFrame s1 s (tid :: ids) := by
  obtain ⟨r1, c1, f1, h1h, mc1, mf1⟩ := h1
  refine ⟨?_, ?_, ?_, ?_, ?_, ?_⟩
  · intro k hk
    simp only [List.mem_cons, not_or] at hk
    exact r1 k hk.1
  · intro k hk
    simp only [List.mem_cons, not_or] at hk
    exact c1 k hk.1
  · intro k hk
    simp only [List.mem_cons, not_or] at hk
    exact f1 k hk.1
  · intro e he
    rcases h1h e he with h | h
    · exact Or.inl h
    · exact Or.inr (by simp [h])
  · exact mc1
  · exact mf1

/-- Frame property of the whole loop: ids not named by the remaining
tasks keep their `results` entry and their completed/failed membership;
every new history entry carries a processed task's id; the
completed/failed lists only grow. -/
theorem runTasks_frame (tools : List (String × ToolCap)) (tr : TrustOracle)
    (stop : Bool) (ts : List TaskSpec) (s : PState) :
    LoopFrame (runTasks tools tr stop s ts).state s (idsOf ts) := by
  induction ts generalizing s with
  | nil => exact loopFrame_refl s
  | cons t rest ih =>
      have hstep := execTask_frame tools tr stop s t
      have hids : idsOf (t :: rest) = t.id :: idsOf rest := rfl
      rw [hids]
      cases hs : execTask tools tr stop s t with
      | next s1 =>
          have hstate : (execTask tools tr stop s t).state = s1 := by
            rw [hs]
            rfl
          rw [hstate] at hstep
          have : runTasks tools tr stop s (t :: rest) = runTasks tools tr stop s1 rest := by
            simp [runTasks, hs]
          rw [this]
          exact loopFrame_comp _ s1 s t.id (idsOf rest) hstep (ih s1)
      | stop s1 =>
          have hstate : (execTask tools tr stop s t).state = s1 := by
            rw [hs]
            rfl
          rw [hstate] at hstep
          have : runTasks tools tr stop s (t :: rest) = .broke s1 := by
            simp [runTasks, hs]
          rw [this]
          exact loopFrame_of_frameOK s1 s t.id (idsOf rest) hstep
      | exn m s1 =>
          have hstate : (execTask tools tr stop s t).state = s1 := by
            rw [hs]
            rfl
          rw [hstate] at hstep
          have : runTasks tools tr stop s (t :: rest) = .exn m s1 := by
            simp [runTasks, hs]
          rw [this]
          exact loopFrame_of_frameOK s1 s t.id (idsOf rest) hstep

/-- When validation passes and the permission gate is not the blocker,
`execute_plan` is the loop outcome packaged as a report. -/
theorem executePlan_run (tools : List (String × ToolCap)) (tr : TrustOracle)
    (tm0 : TMState) (p : Plan)
    (hvalid : validatePlan tools p = Option.none)
    (hperm : collectPermissionOperations tools p = [] ∨
      requestPlanPermissions tr (collectPermissionOperations tools p) = true) :
    executePlan tools tr tm0 p =
      runOutcome p (runTasks tools tr p.stop_on_failure (initState tm0) p.tasks) := by
  unfold executePlan
  rw [hvalid]
  have hgate : (!(collectPermissionOperations tools p).isEmpty &&
      !(requestPlanPermissions tr (collectPermissionOperations tools p))) = false := by
    rcases hperm with h | h
    · simp [h]
    · simp [h]
  simp only [hgate, Bool.false_eq_true, if_false]

/-! ## Template substitution: resolution lemmas -/

/-- A single `task_result` variable whose field path fully resolves:
the placeholder is replaced by the stringified value with newlines
removed. -/
theorem processString_field_resolved
    (nm s tid f : String) (results : List (String × Value)) (res v : Value)
    (tv : TemplateVar)
    (hty : tv.vtype = some "task_result") (htid : tv.task_id = tid)
    (hf : tv.field = some f)
    (hres : lookupA results tid = some res)
    (hnav : navigatePath (pySplit f ".") res = some v)
    (hc : strContains s ("$\x7b" ++ nm ++ "\x7d") = true) :
    processString [(nm, tv)] results s =
      pyReplace s ("$\x7b" ++ nm ++ "\x7d") (pyReplace (pyStr v) "\n" "") := by
  simp only [processString, List.foldl]
  unfold applyTemplateVar
  simp only [hc, if_true, hty, htid, hf, hres, hnav, Option.getD_some]
  simp

/-- A single `task_result` variable whose field path meets a missing
key: the placeholder is replaced by the stringified default (the source
strips newlines from it as well; the hypothesis `hnl` records when that
stripping is the identity). -/
theorem processString_field_missing
    (nm s tid f : String) (results : List (String × Value)) (res dv : Value)
    (tv : TemplateVar)
    (hty : tv.vtype = some "task_result") (htid : tv.task_id = tid)
    (hf : tv.field = some f)
    (hres : lookupA results tid = some res)
    (hnav : navigatePath (pySplit f ".") res = Option.none)
    (hd : tv.dflt = some dv)
    (hnl : pyReplace (pyStr dv) "\n" "" = pyStr dv)
    (hc : strContains s ("$\x7b" ++ nm ++ "\x7d") = true) :
    processString [(nm, tv)] results s =
      pyReplace s ("$\x7b" ++ nm ++ "\x7d") (pyStr dv) := by
  simp only [processString, List.foldl]
  unfold applyTemplateVar
  simp only [hc, if_true, hty, htid, hf, hres, hnav, hd, Option.getD_none,
    Option.getD_some, hnl]
  simp

/-- A single `static` variable: the placeholder is replaced by the
stringified static value, with no newline stripping. -/
theorem processString_static
    (nm s : String) (results : List (String × Value)) (sv : Value)
    (tv : TemplateVar)
    (hty : tv.vtype = some "static") (hval : tv.value = some sv)
    (hc : strContains s ("$\x7b" ++ nm ++ "\x7d") = true) :
    processString [(nm, tv)] results s =
      pyReplace s ("$\x7b" ++ nm ++ "\x7d") (pyStr sv) := by
  simp only [processString, List.foldl]
  unfold applyTemplateVar
  simp only [hc, if_true, hty, hval, Option.getD_some]
  simp

/-- A single `task_result` variable without a field path, referencing a
dictionary result: the placeholder is replaced by the JSON encoding,
with no newline stripping. -/
theorem processString_whole_dict
    (nm s tid : String) (results : List (String × Value))
    (d : List (String × Value)) (tv : TemplateVar)
    (hty : tv.vtype = some "task_result") (htid : tv.task_id = tid)
    (hf : tv.field = Option.none)
    (hres : lookupA results tid = some (Value.dict d))
    (hc : strContains s ("$\x7b" ++ nm ++ "\x7d") = true) :
    processString [(nm, tv)] results s =
      pyReplace s ("$\x7b" ++ nm ++ "\x7d") (jsonDumps (Value.dict d)) := by
  simp only [processString, List.foldl]
  unfold applyTemplateVar
  simp only [hc, if_true, hty, htid, hf, hres]
  simp

/-! ## Claim theorems: template substitution (C4, C7, C10) -/

/-- Claim C4 (code evidence): template substitution does NOT apply the
same resolution rules to string leaves inside list-valued arguments.
For the same `task_result` variable (task present in `results`, field
`out` resolving to `"X"`, default `"D"`), the list item `"$\x7bv\x7d/x"`
becomes `"D/x"` — the list branch substitutes
`str(var_def.get("value", var_def.get("default", "")))`, ignoring the
task result — while the identical top-level string argument becomes
`"X/x"`. -/
theorem c4_list_items_ignore_task_results :
    processTemplateVars [("v", c4Tv)] c4Results
        [("files", Value.list [Value.str "$\x7bv\x7d/x"])] =
      [("files", Value.list [Value.str "D/x"])] ∧
    processTemplateVars [("v", c4Tv)] c4Results
        [("file", Value.str "$\x7bv\x7d/x")] =
      [("file", Value.str "X/x")] :=
  ⟨rfl, rfl⟩

/-- Claim C7: a `task_result` variable with field `"a.b"` against a
result `{"a": {"b": "X"}}` substitutes the literal `"X"` for the
placeholder wherever it occurs in the string; a placeholder embedded in
a larger argument string works (the `"$\x7bd\x7d/f.txt"` scenario
yields `"/home/u/f.txt"`); and a field path meeting a missing key
substitutes the stringified default. -/
theorem c7_field_path_resolution :
    (∀ (nm s tid : String) (results : List (String × Value)) (tv : TemplateVar),
      tv.vtype = some "task_result" → tv.task_id = tid →
      tv.field = some "a.b" →
      lookupA results tid =
        some (Value.dict [("a", Value.dict [("b", Value.str "X")])]) →
      strContains s ("$\x7b" ++ nm ++ "\x7d") = true →
      processString [(nm, tv)] results s =
        pyReplace s ("$\x7b" ++ nm ++ "\x7d") "X") ∧
    (∀ (tid : String) (results : List (String × Value)) (tv : TemplateVar),
      tv.vtype = some "task_result" → tv.task_id = tid →
      tv.field = some "output" →
      lookupA results tid =
        some (Value.dict [("output", Value.str "/home/u"),
                          ("success", Value.bool true)]) →
      processString [("d", tv)] results "$\x7bd\x7d/f.txt" = "/home/u/f.txt") ∧
    (∀ (nm s tid f : String) (results : List (String × Value)) (res dv : Value)
        (tv : TemplateVar),
      tv.vtype = some "task_result" → tv.task_id = tid → tv.field = some f →
      lookupA results tid = some res →
      navigatePath (pySplit f ".") res = Option.none →
      tv.dflt = some dv →
      pyReplace (pyStr dv) "\n" "" = pyStr dv →
      strContains s ("$\x7b" ++ nm ++ "\x7d") = true →
      processString [(nm, tv)] results s =
        pyReplace s ("$\x7b" ++ nm ++ "\x7d") (pyStr dv)) := by
  refine ⟨?_, ?_, ?_⟩
  · intro nm s tid results tv hty htid hf hres hc
    have h := processString_field_resolved nm s tid "a.b" results _ (Value.str "X")
      tv hty htid hf hres (by rfl) hc
    rw [h]
    rfl
  · intro tid results tv hty htid hf hres
    have h := processString_field_resolved "d" "$\x7bd\x7d/f.txt" tid "output"
      results _ (Value.str "/home/u") tv hty htid hf hres (by rfl) (by rfl)
    rw [h]
    rfl
  · intro nm s tid f results res dv tv hty htid hf hres hnav hd hnl hc
    exact processString_field_missing nm s tid f results res dv tv hty htid hf
      hres hnav hd hnl hc

/-- Claim C7 witness: the `a.b` round trip, the `$\x7bd\x7d/f.txt`
scenario, and a missing path falling back to the default, each at
concrete inputs. -/
theorem c7_field_path_resolution_witness :
    processString [("v", c7Tv)] c7Results "A$\x7bv\x7dB" = "AXB" ∧
    processString [("d", c7DirTv)] c7DirResults "$\x7bd\x7d/f.txt" =
      "/home/u/f.txt" ∧
    processString [("v", c7MissTv)] c7Results "A$\x7bv\x7dB" = "AfbB" := by
  refine ⟨?_, ?_, ?_⟩
  · rw [c7_field_path_resolution.1 "v" "A$\x7bv\x7dB" "t1" c7Results c7Tv
      rfl rfl rfl rfl (by rfl)]
    rfl
  · exact c7_field_path_resolution.2.1 "t1" c7DirResults c7DirTv rfl rfl rfl rfl
  · rw [c7_field_path_resolution.2.2 "v" "A$\x7bv\x7dB" "t1" "a.zz" c7Results _
      (Value.str "fb") c7MissTv rfl rfl rfl rfl (by rfl) rfl (by rfl) (by rfl)]
    rfl

/-- Claim C10 (implicit behavior): for `task_result` variables with a
field path, the resolved value is stringified and then every newline is
removed before substitution; static variables and whole-result
substitutions are not stripped this way. -/
theorem c10_newline_stripping :
    (∀ (nm s tid f : String) (results : List (String × Value)) (res v : Value)
        (tv : TemplateVar),
      tv.vtype = some "task_result" → tv.task_id = tid → tv.field = some f →
      lookupA results tid = some res →
      navigatePath (pySplit f ".") res = some v →
      strContains s ("$\x7b" ++ nm ++ "\x7d") = true →
      processString [(nm, tv)] results s =
        pyReplace s ("$\x7b" ++ nm ++ "\x7d") (pyReplace (pyStr v) "\n" "")) ∧
    (∀ (nm s : String) (results : List (String × Value)) (sv : Value)
        (tv : TemplateVar),
      tv.vtype = some "static" → tv.value = some sv →
      strContains s ("$\x7b" ++ nm ++ "\x7d") = true →
      processString [(nm, tv)] results s =
        pyReplace s ("$\x7b" ++ nm ++ "\x7d") (pyStr sv)) ∧
    (∀ (nm s tid : String) (results : List (String × Value))
        (d : List (String × Value)) (tv : TemplateVar),
      tv.vtype = some "task_result" → tv.task_id = tid →
      tv.field = Option.none →
      lookupA results tid = some (Value.dict d) →
      strContains s ("$\x7b" ++ nm ++ "\x7d") = true →
      processString [(nm, tv)] results s =
        pyReplace s ("$\x7b" ++ nm ++ "\x7d") (jsonDumps (Value.dict d))) := by
  refine ⟨?_, ?_, ?_⟩
  · intro nm s tid f results res v tv hty htid hf hres hnav hc
    exact processString_field_resolved nm s tid f results res v tv hty htid hf
      hres hnav hc
  · intro nm s results sv tv hty hval hc
    exact processString_static nm s results sv tv hty hval hc
  · intro nm s tid results d tv hty htid hf hres hc
    exact processString_whole_dict nm s tid results d tv hty htid hf hres hc

/-- Claim C10 witness: a field value `"a\nb"` is substituted with its
newline deleted (`"AabB"`), while a static value and a whole-result
substitution keep their newline (raw, resp. JSON-escaped). -/
theorem c10_newline_stripping_witness :
    processString [("v", c10Tv)] c10Results "A$\x7bv\x7dB" = "AabB" ∧
    processString [("v", c10StaticTv)] c10Results "A$\x7bv\x7dB" = "Aa\nbB" ∧
    processString [("v", c10WholeTv)] c10Results "A$\x7bv\x7dB" =
      "A\x7b\"out\": \"a\\nb\"\x7dB" := by
  refine ⟨?_, ?_, ?_⟩
  · rw [c10_newline_stripping.1 "v" "A$\x7bv\x7dB" "t1" "out" c10Results _
      (Value.str "a\nb") c10Tv rfl rfl rfl rfl (by rfl) (by rfl)]
    rfl
  · rw [c10_newline_stripping.2.1 "v" "A$\x7bv\x7dB" c10Results
      (Value.str "a\nb") c10StaticTv rfl rfl (by rfl)]
    rfl
  · rw [c10_newline_stripping.2.2 "v" "A$\x7bv\x7dB" "t1" c10Results _
      c10WholeTv rfl rfl rfl rfl (by rfl)]
    rfl

/-! ## Claim theorems: Tool Execution Manager (C5, C9) -/

/-- Claim C9: if the capability's `execute` raises, the Tool Execution
Manager catches the exception and returns
`{success: false, error: "Error executing <tool>: <message>"}`; nothing
propagates (the returned value is an ordinary `Except.ok` result). -/
theorem c9_capability_exceptions_caught
    (tools : List (String × ToolCap)) (st : TMState)
    (toolName : String) (args : List (String × Value)) (cap : ToolCap)
    (msg : String)
    (hreg : lookupA tools toolName = some cap)
    (hexc : cap.exec args = .error msg) :
    performToolExecution cap st toolName args =
      (.ok (errorResult ("Error executing " ++ toolName ++ ": " ++ msg)),
       { st with invocations := st.invocations ++ [(toolName, args)] }) := by
  unfold performToolExecution
  rw [hexc]

/-- Claim C9 witness: the registered tool `r` raising `"disk full"`
yields the converted error result. -/
theorem c9_capability_exceptions_caught_witness :
    lookupA fixTools "r" = some fixRaiseTool ∧
    fixRaiseTool.exec [] = .error "disk full" ∧
    performToolExecution fixRaiseTool tmEmpty "r" [] =
      (.ok (errorResult "Error executing r: disk full"),
       { recent := [], currentTurn := [], invocations := [("r", [])] }) :=
  ⟨rfl, rfl,
   c9_capability_exceptions_caught fixTools tmEmpty "r" [] fixRaiseTool
     "disk full" rfl rfl⟩

/-- Claim C5 counterexample: with the default context-check message
enabled (`check_context_msg = True`, as the planner and the agent call
it), the second identical `grep` call in a turn returns an error whose
text is the redundancy message PLUS the suffix " Please check your
context for the previous result." — not the bare message the claim
states. -/
theorem c5_counterexample :
    executeTool fixTools fixTrust tmEmpty "grep" c5Args true false =
      (.ok [("success", Value.bool true)], c5St1) ∧
    executeTool fixTools fixTrust c5St1 "grep" c5Args true false =
      (.ok (errorResult
        "Identical grep call was already executed in this conversation turn. Please check your context for the previous result."),
       c5St1) ∧
    "Identical grep call was already executed in this conversation turn. Please check your context for the previous result." ≠
      "Identical grep call was already executed in this conversation turn." := by
  refine ⟨rfl, rfl, by decide⟩

/-- Claim C5 as amended: a call whose redundancy key (tool name with
sorted argument pairs) was already recorded in the current turn returns
`{success: false, error: "Identical <tool> call was already executed in
this conversation turn."}` — suffixed with " Please check your context
for the previous result." when `check_context_msg` is set — without
invoking the capability and without changing any state; once the
turn-scoped list is cleared by the owning agent, the identical call
reaches the capability again. -/
theorem c5_turn_scoped_redundancy
    (tools : List (String × ToolCap)) (tr : TrustOracle) (st : TMState)
    (toolName : String) (args : List (String × Value)) (cap : ToolCap)
    (cmsg pre : Bool) (r : List (String × Value))
    (hreg : lookupA tools toolName = some cap)
    (hred : isRedundantCall st toolName args = true) :
    (executeTool tools tr st toolName args cmsg pre =
      (.ok (errorResult
        ("Identical " ++ toolName ++
          " call was already executed in this conversation turn." ++
          (if cmsg then " Please check your context for the previous result."
           else ""))), st)) ∧
    (cap.requires_confirmation = false → cap.exec args = .ok r →
      (executeTool tools tr { st with currentTurn := [] } toolName args
          cmsg pre).1 = .ok r ∧
      (executeTool tools tr { st with currentTurn := [] } toolName args
          cmsg pre).2.invocations = st.invocations ++ [(toolName, args)]) := by
  constructor
  · unfold executeTool
    rw [hreg]
    simp only [hred, if_true, redundantMsg]
  · intro hconf hexec
    have hnored : isRedundantCall { st with currentTurn := [] } toolName args
        = false := rfl
    unfold executeTool
    rw [hreg]
    simp only [hnored, Bool.false_eq_true, if_false, hconf, Bool.false_and,
      performToolExecution, hexec]
    exact ⟨trivial, rfl⟩

/-- Claim C5 witness: the grep scenario — a recorded identical call in
the current turn, the redundancy error with the context suffix, and the
capability invoked again after the turn-scoped list is cleared. -/
theorem c5_turn_scoped_redundancy_witness :
    isRedundantCall c5St1 "grep" c5Args = true ∧
    executeTool fixTools fixTrust c5St1 "grep" c5Args true false =
      (.ok (errorResult
        "Identical grep call was already executed in this conversation turn. Please check your context for the previous result."),
       c5St1) ∧
    (executeTool fixTools fixTrust { c5St1 with currentTurn := [] } "grep"
        c5Args true false).1 = .ok [("success", Value.bool true)] ∧
    (executeTool fixTools fixTrust { c5St1 with currentTurn := [] } "grep"
        c5Args true false).2.invocations =
      c5St1.invocations ++ [("grep", c5Args)] := by
  have h := c5_turn_scoped_redundancy fixTools fixTrust c5St1 "grep" c5Args
    fixOkTool true false [("success", Value.bool true)] rfl (by rfl)
  exact ⟨by rfl, h.1, (h.2 rfl rfl).1, (h.2 rfl rfl).2⟩

/-! ## Claim theorems: plan validation (C6) -/

/-- The first validation loop passes exactly when every task names a
registered tool. -/
theorem checkTasks_none_iff (tools : List (String × ToolCap)) (ts : List TaskSpec) :
    checkTasks tools ts = Option.none ↔
      ∀ t ∈ ts, (lookupA tools t.tool_name).isSome := by
  induction ts with
  | nil => simp [checkTasks]
  | cons t rest ih =>
      by_cases h : (lookupA tools t.tool_name).isNone
      · simp [checkTasks, h, Option.isNone_iff_eq_none.1 h]
      · have hs : (lookupA tools t.tool_name).isSome = true := by
          cases hval : lookupA tools t.tool_name
          · simp [hval] at h
          · simp
        simp only [checkTasks, h, if_false, Bool.false_eq_true, ih]
        simp [hs]

/-- The dependency validation loop passes exactly when every
`depends_on` entry is a declared task id. -/
theorem checkDeps_none_iff (ids : List String) (ts : List TaskSpec) :
    checkDeps ids ts = Option.none ↔
      ∀ t ∈ ts, ∀ ds, t.depends_on = some ds → ∀ d ∈ ds, d ∈ ids := by
  induction ts with
  | nil => simp [checkDeps]
  | cons t rest ih =>
      cases hdep : t.depends_on with
      | none =>
          simp only [checkDeps, hdep, ih]
          constructor
          · intro h
            intro t1 ht1
            rcases List.mem_cons.1 ht1 with h1 | h1
            · subst h1
              intro ds hds
              rw [hdep] at hds
              cases hds
            · exact h t1 h1
          · intro h t1 ht1
            exact h t1 (List.mem_cons_of_mem _ ht1)
      | some ds =>
          cases hfind : ds.find? (fun d => !(ids.contains d)) with
          | some d =>
              simp only [checkDeps, hdep, hfind]
              constructor
              · intro h
                cases h
              · intro h
                have hd := List.find?_some hfind
                have hmem := List.mem_of_find?_eq_some hfind
                have := h t (List.mem_cons_self t rest) ds hdep d hmem
                simp at hd
                exact absurd this hd
          | none =>
              simp only [checkDeps, hdep, hfind, ih]
              constructor
              · intro h t1 ht1
                rcases List.mem_cons.1 ht1 with h1 | h1
                · subst h1
                  intro ds1 hds1 d hd
                  rw [hdep] at hds1
                  cases hds1
                  have := List.find?_eq_none.1 hfind d hd
                  simpa using this
                · exact h t1 h1
              · intro h t1 ht1
                exact h t1 (List.mem_cons_of_mem _ ht1)

/-- The condition validation loop passes exactly when every condition
has a recognized type and, for `task_result`, a declared `task_id`. -/
theorem checkConds_none_iff (ids : List String) (ts : List TaskSpec) :
    checkConds ids ts = Option.none ↔
      ∀ t ∈ ts, ∀ c, t.condition = some c →
        ((c.ctype = "task_result" ∨ c.ctype = "expression") ∧
         (c.ctype = "task_result" →
           ∃ tid, c.task_id = some tid ∧ tid ∈ ids)) := by
  induction ts with
  | nil => simp [checkConds]
  | cons t rest ih =>
      cases hcond : t.condition with
      | none =>
          simp only [checkConds, hcond, ih]
          constructor
          · intro h t1 ht1
            rcases List.mem_cons.1 ht1 with h1 | h1
            · subst h1
              intro c hc
              rw [hcond] at hc
              cases hc
            · exact h t1 h1
          · intro h t1 ht1
            exact h t1 (List.mem_cons_of_mem _ ht1)
      | some c =>
          by_cases h1 : c.ctype = "task_result"
          · cases htid : c.task_id with
            | none =>
                simp only [checkConds, hcond, h1, htid, bne_self_eq_false,
                  Bool.false_and, Bool.false_eq_true, if_false,
                  beq_self_eq_true, if_true]
                constructor
                · intro h
                  cases h
                · intro h
                  exfalso
                  rcases (h t (List.mem_cons_self t rest) c hcond).2 h1 with
                    ⟨tid, htid2, _⟩
                  rw [htid] at htid2
                  cases htid2
            | some tid =>
                by_cases hmem : tid ∈ ids
                · have hcont : ids.contains tid = true := by simp [hmem]
                  simp only [checkConds, hcond, h1, htid, bne_self_eq_false,
                    Bool.false_and, Bool.false_eq_true, if_false,
                    beq_self_eq_true, if_true, hcont, Bool.not_true, ih]
                  constructor
                  · intro h t1 ht1
                    rcases List.mem_cons.1 ht1 with hh | hh
                    · subst hh
                      intro c1 hc1
                      rw [hcond] at hc1
                      cases hc1
                      exact ⟨Or.inl h1, fun _ => ⟨tid, htid, hmem⟩⟩
                    · exact h t1 hh
                  · intro h t1 ht1
                    exact h t1 (List.mem_cons_of_mem _ ht1)
                · have hcont : ids.contains tid = false := by simp [hmem]
                  simp only [checkConds, hcond, h1, htid, bne_self_eq_false,
                    Bool.false_and, Bool.false_eq_true, if_false,
                    beq_self_eq_true, if_true, hcont, Bool.not_false]
                  constructor
                  · intro h
                    cases h
                  · intro h
                    exfalso
                    rcases (h t (List.mem_cons_self t rest) c hcond).2 h1 with
                      ⟨tid2, htid2, hmem2⟩
                    rw [htid] at htid2
                    cases htid2
                    exact hmem hmem2
          · by_cases h2 : c.ctype = "expression"
            · have hne : (("expression" : String) == "task_result") = false := by
                decide
              simp only [checkConds, hcond, h2, bne_self_eq_false,
                Bool.and_false, Bool.false_eq_true, if_false, hne, ih]
              constructor
              · intro h t1 ht1
                rcases List.mem_cons.1 ht1 with hh | hh
                · subst hh
                  intro c1 hc1
                  rw [hcond] at hc1
                  cases hc1
                  exact ⟨Or.inr h2, fun hx => absurd hx h1⟩
                · exact h t1 hh
              · intro h t1 ht1
                exact h t1 (List.mem_cons_of_mem _ ht1)
            · have hb1 : (c.ctype != "task_result") = true := by
                simp [bne, h1]
              have hb2 : (c.ctype != "expression") = true := by
                simp [bne, h2]
              simp only [checkConds, hcond, hb1, hb2, Bool.and_self, if_true]
              constructor
              · intro h
                cases h
              · intro h
                exfalso
                rcases (h t (List.mem_cons_self t rest) c hcond).1 with hh | hh
                · exact h1 hh
                · exact h2 hh

/-- The symmetric-cycle predicate of one dependency edge is false
exactly when the dependency (as resolved through `tasks_by_id`) does
not depend back on the task. -/
theorem cyclePred_false_iff (byId : List (String × TaskSpec)) (tid : String)
    (d : String) :
    (match lookupA byId d with
     | some dt =>
         match dt.depends_on with
         | some ds2 => ds2.contains tid
         | Option.none => false
     | Option.none => false) = false ↔
      (∀ dt, lookupA byId d = some dt →
        ∀ ds2, dt.depends_on = some ds2 → tid ∉ ds2) := by
  cases hl : lookupA byId d with
  | none =>
      constructor
      · intro _ dt hdt
        cases hdt
      · intro _
        rfl
  | some dt =>
      cases hd2 : dt.depends_on with
      | none =>
          simp only [hd2]
          constructor
          · intro _ dt1 hdt1
            cases hdt1
            intro ds2 hds2
            rw [hd2] at hds2
            cases hds2
          · intro _
            trivial
      | some ds2 =>
          simp only [hd2]
          constructor
          · intro h dt1 hdt1
            cases hdt1
            intro ds3 hds3
            rw [hd2] at hds3
            cases hds3
            intro hmem
            simp at h
            exact h hmem
          · intro h
            simpa using h dt rfl ds2 hd2

/-- The cycle-check loop passes exactly when no direct two-task
dependency cycle exists (resolved through `tasks_by_id`). -/
theorem checkCycles_none_iff (byId : List (String × TaskSpec))
    (ts : List TaskSpec) :
    checkCycles byId ts = Option.none ↔
      ∀ t ∈ ts, ∀ ds, t.depends_on = some ds → ∀ d ∈ ds,
        ∀ dt, lookupA byId d = some dt →
          ∀ ds2, dt.depends_on = some ds2 → t.id ∉ ds2 := by
  induction ts with
  | nil => simp [checkCycles]
  | cons t rest ih =>
      cases hdep : t.depends_on with
      | none =>
          simp only [checkCycles, hdep, ih]
          constructor
          · intro h t1 ht1
            rcases List.mem_cons.1 ht1 with h1 | h1
            · subst h1
              intro ds hds
              rw [hdep] at hds
              cases hds
            · exact h t1 h1
          · intro h t1 ht1
            exact h t1 (List.mem_cons_of_mem _ ht1)
      | some ds =>
          cases hfind : ds.find? (fun d =>
              match lookupA byId d with
              | some dt =>
                  match dt.depends_on with
                  | some ds2 => ds2.contains t.id
                  | Option.none => false
              | Option.none => false) with
          | some d =>
              simp only [checkCycles, hdep, hfind]
              constructor
              · intro h
                cases h
              · intro h
                exfalso
                have hd := List.find?_some hfind
                have hmem := List.mem_of_find?_eq_some hfind
                have h2 := h t (List.mem_cons_self t rest) ds hdep d hmem
                have h3 := (cyclePred_false_iff byId t.id d).2 h2
                rw [h3] at hd
                cases hd
          | none =>
              simp only [checkCycles, hdep, hfind, ih]
              constructor
              · intro h t1 ht1
                rcases List.mem_cons.1 ht1 with h1 | h1
                · subst h1
                  intro ds1 hds1 d hd
                  rw [hdep] at hds1
                  cases hds1
                  have hp := List.find?_eq_none.1 hfind d hd
                  exact (cyclePred_false_iff byId t1.id d).1 (by simpa using hp)
                · exact h t1 h1
              · intro h t1 ht1
                exact h t1 (List.mem_cons_of_mem _ ht1)

/-- Claim C6 as amended: `validate_plan` accepts exactly the plans with
a non-empty task list, registered tools, `depends_on` and `condition`
references naming declared task ids (condition types restricted to
`task_result`/`expression`), and no direct two-task dependency cycle —
uniqueness and non-emptiness of task ids are NOT enforced.  (In this
embedding the per-task presence checks for `id`/`tool_name` and the
type checks on `arguments`/`depends_on`/`condition` hold by
construction.) -/
theorem c6_validation_characterization (tools : List (String × ToolCap)) (p : Plan) :
    validatePlan tools p = Option.none ↔
      (p.tasks ≠ [] ∧
       (∀ t ∈ p.tasks, (lookupA tools t.tool_name).isSome) ∧
       (∀ t ∈ p.tasks, ∀ ds, t.depends_on = some ds →
         ∀ d ∈ ds, d ∈ idsOf p.tasks) ∧
       (∀ t ∈ p.tasks, ∀ c, t.condition = some c →
         ((c.ctype = "task_result" ∨ c.ctype = "expression") ∧
          (c.ctype = "task_result" →
            ∃ tid, c.task_id = some tid ∧ tid ∈ idsOf p.tasks))) ∧
       (∀ t ∈ p.tasks, ∀ ds, t.depends_on = some ds → ∀ d ∈ ds,
         ∀ dt, lookupA (tasksById p.tasks) d = some dt →
           ∀ ds2, dt.depends_on = some ds2 → t.id ∉ ds2)) := by
  unfold validatePlan
  by_cases hempty : p.tasks.isEmpty
  · have hnil : p.tasks = [] := by simpa using hempty
    simp [hempty, hnil]
  · have hne : p.tasks ≠ [] := by simpa using hempty
    simp only [hempty, Bool.false_eq_true, if_false]
    cases h1 : checkTasks tools p.tasks with
    | some e =>
        constructor
        · intro h
          cases h
        · intro h
          exfalso
          have h2 := (checkTasks_none_iff tools p.tasks).2 h.2.1
          rw [h1] at h2
          cases h2
    | none =>
        cases h2 : checkDeps (idsOf p.tasks) p.tasks with
        | some e =>
            constructor
            · intro h
              cases h
            · intro h
              exfalso
              have h3 := (checkDeps_none_iff (idsOf p.tasks) p.tasks).2 h.2.2.1
              rw [h2] at h3
              cases h3
        | none =>
            cases h3 : checkConds (idsOf p.tasks) p.tasks with
            | some e =>
                constructor
                · intro h
                  cases h
                · intro h
                  exfalso
                  have h4 := (checkConds_none_iff (idsOf p.tasks) p.tasks).2 h.2.2.2.1
                  rw [h3] at h4
                  cases h4
            | none =>
                rw [checkCycles_none_iff]
                constructor
                · intro h
                  exact ⟨hne, (checkTasks_none_iff tools p.tasks).1 h1,
                    (checkDeps_none_iff (idsOf p.tasks) p.tasks).1 h2,
                    (checkConds_none_iff (idsOf p.tasks) p.tasks).1 h3, h⟩
                · intro h
                  exact h.2.2.2.2

/-- Claim C6 counterexample: a plan whose first task has the empty id
and whose last two tasks share the id `"a"` is accepted by
`validate_plan`. -/
theorem c6_counterexample :
    validatePlan fixTools c6Plan = Option.none ∧
    idsOf c6Plan.tasks = ["", "a", "a"] :=
  ⟨rfl, rfl⟩

/-- Claim C6 witness: the characterization applied to the concrete
duplicate/empty-id plan, whose acceptance is discharged by `rfl`. -/
theorem c6_validation_characterization_witness :
    c6Plan.tasks ≠ [] ∧
    (∀ t ∈ c6Plan.tasks, (lookupA fixTools t.tool_name).isSome) ∧
    (∀ t ∈ c6Plan.tasks, ∀ ds, t.depends_on = some ds →
      ∀ d ∈ ds, d ∈ idsOf c6Plan.tasks) ∧
    (∀ t ∈ c6Plan.tasks, ∀ c, t.condition = some c →
      ((c.ctype = "task_result" ∨ c.ctype = "expression") ∧
       (c.ctype = "task_result" →
         ∃ tid, c.task_id = some tid ∧ tid ∈ idsOf c6Plan.tasks))) ∧
    (∀ t ∈ c6Plan.tasks, ∀ ds, t.depends_on = some ds → ∀ d ∈ ds,
      ∀ dt, lookupA (tasksById c6Plan.tasks) d = some dt →
        ∀ ds2, dt.depends_on = some ds2 → t.id ∉ ds2) :=
  (c6_validation_characterization fixTools c6Plan).1 rfl

/-! ## Claim theorems: plan execution (C1, C2, C3, C8) -/

/-- The report exposes the final loop state (results). -/
theorem runOutcome_results (p : Plan) (o : LoopOut) :
    (runOutcome p o).report.results = o.state.results := by
  cases o <;> rfl

/-- The report exposes the final loop state (failed list). -/
theorem runOutcome_failed (p : Plan) (o : LoopOut) :
    (runOutcome p o).report.failed_tasks = o.state.failed := by
  cases o <;> rfl

/-- The report exposes the final loop state (completed list). -/
theorem runOutcome_completed (p : Plan) (o : LoopOut) :
    (runOutcome p o).report.completed_tasks = o.state.completed := by
  cases o <;> rfl

/-- The outcome exposes the final execution history. -/
theorem runOutcome_history (p : Plan) (o : LoopOut) :
    (runOutcome p o).history = o.state.history := by
  cases o <;> rfl

/-- A single dependency that is not completed, or is failed, falsifies
the dependency check. -/
theorem depsMet_false_of_violation (s : PState) (ds : List String) (d : String)
    (hd : d ∈ ds) (hviol : d ∉ s.completed ∨ d ∈ s.failed) :
    depsMet s ds = false := by
  unfold depsMet
  rw [List.all_eq_false]
  refine ⟨d, hd, ?_⟩
  rcases hviol with h | h
  · simp [h]
  · simp [h]

/-- A task reached with unmet dependencies is recorded as the
dependency failure and the loop CONTINUES (`.next`, never a break). -/
theorem execTask_depFail (tools : List (String × ToolCap)) (tr : TrustOracle)
    (stop : Bool) (s : PState) (task : TaskSpec) (ds : List String)
    (hdeps : task.depends_on = some ds) (hdm : depsMet s ds = false) :
    execTask tools tr stop s task = .next { s with
      failed := s.failed ++ [task.id],
      results := insertA s.results task.id depFailRecord } := by
  unfold execTask
  rw [hdeps]
  simp [hdm]

/-- A task reached with met (or absent) dependencies whose condition
evaluates false is recorded as a non-failing skip. -/
theorem execTask_condSkip (tools : List (String × ToolCap)) (tr : TrustOracle)
    (stop : Bool) (s : PState) (task : TaskSpec) (c : Condition)
    (hdeps : task.depends_on = Option.none ∨
      ∃ ds, task.depends_on = some ds ∧ depsMet s ds = true)
    (hcond : task.condition = some c)
    (hfalse : evaluateCondition c s.results = .ok false) :
    execTask tools tr stop s task = .next { s with
      results := insertA s.results task.id condSkipRecord,
      completed := s.completed ++ [task.id] } := by
  unfold execTask
  rcases hdeps with h | ⟨ds, hds, hdm⟩
  · rw [h]
    simp [hcond, hfalse]
  · rw [hds]
    simp [hdm, hcond, hfalse]

/-- Claim C2: a task reached with a dependency not in `completed_tasks`
or in `failed_tasks` at that moment gets
`results[task_id] = {success: false, error: "Dependencies not met",
skipped: true}`, its id appended to `failed_tasks`, and no tool is
ever invoked for it (no execution-history entry carries its id). -/
theorem c2_unmet_dependencies_recorded
    (tools : List (String × ToolCap)) (tr : TrustOracle) (tm0 : TMState)
    (p : Plan) (pre post : List TaskSpec) (task : TaskSpec) (s : PState)
    (ds : List String) (d : String)
    (hplan : p.tasks = pre ++ task :: post)
    (hvalid : validatePlan tools p = Option.none)
    (hperm : collectPermissionOperations tools p = [] ∨
      requestPlanPermissions tr (collectPermissionOperations tools p) = true)
    (hpre : runTasks tools tr p.stop_on_failure (initState tm0) pre = .ok s)
    (hdeps : task.depends_on = some ds)
    (hd : d ∈ ds) (hviol : d ∉ s.completed ∨ d ∈ s.failed)
    (hfresh1 : task.id ∉ idsOf pre) (hfresh2 : task.id ∉ idsOf post) :
    lookupA (executePlan tools tr tm0 p).report.results task.id =
      some depFailRecord ∧
    task.id ∈ (executePlan tools tr tm0 p).report.failed_tasks ∧
    (∀ e ∈ (executePlan tools tr tm0 p).history, e.taskId ≠ task.id) := by
  have hdm := depsMet_false_of_violation s ds d hd hviol
  have hstep := execTask_depFail tools tr p.stop_on_failure s task ds hdeps hdm
  have hrun : runTasks tools tr p.stop_on_failure (initState tm0) p.tasks =
      runTasks tools tr p.stop_on_failure
        { s with failed := s.failed ++ [task.id],
                 results := insertA s.results task.id depFailRecord } post := by
    rw [hplan, runTasks_append, hpre]
    simp only [runTasks, hstep]
  rw [executePlan_run tools tr tm0 p hvalid hperm, hrun]
  obtain ⟨fr, fc, ff, fh, fmc, fmf⟩ := runTasks_frame tools tr p.stop_on_failure post
    { s with failed := s.failed ++ [task.id],
             results := insertA s.results task.id depFailRecord }
  obtain ⟨fr0, fc0, ff0, fh0, fmc0, fmf0⟩ :=
    runTasks_frame tools tr p.stop_on_failure pre (initState tm0)
  rw [hpre] at fh0
  refine ⟨?_, ?_, ?_⟩
  · rw [runOutcome_results, fr task.id hfresh2]
    exact lookupA_insertA_self s.results task.id depFailRecord
  · rw [runOutcome_failed]
    exact fmf task.id (List.mem_append_right _ (List.mem_singleton.2 rfl))
  · rw [runOutcome_history]
    intro e he
    rcases fh e he with h1 | h1
    · rcases fh0 e h1 with h2 | h2
      · cases h2
      · intro heq
        rw [heq] at h2
        exact hfresh1 h2
    · intro heq
      rw [heq] at h1
      exact hfresh2 h1

/-- Claim C3: a task reached (dependencies absent or met) whose
condition evaluates false — in particular a `task_result` condition
with operator `not_equals` whose referenced field equals the expected
value — gets `results[task_id] = {success: true, skipped: true,
reason: "Condition not met"}`, its id appended to `completed_tasks`
and not to `failed_tasks`, and its tool is never invoked. -/
theorem c3_false_condition_skips
    (tools : List (String × ToolCap)) (tr : TrustOracle) (tm0 : TMState)
    (p : Plan) (pre post : List TaskSpec) (task : TaskSpec) (s : PState)
    (c : Condition)
    (hplan : p.tasks = pre ++ task :: post)
    (hvalid : validatePlan tools p = Option.none)
    (hperm : collectPermissionOperations tools p = [] ∨
      requestPlanPermissions tr (collectPermissionOperations tools p) = true)
    (hpre : runTasks tools tr p.stop_on_failure (initState tm0) pre = .ok s)
    (hdepsOk : task.depends_on = Option.none ∨
      ∃ ds, task.depends_on = some ds ∧ depsMet s ds = true)
    (hcond : task.condition = some c)
    (hfalse : evaluateCondition c s.results = .ok false)
    (hfresh1 : task.id ∉ idsOf pre) (hfresh2 : task.id ∉ idsOf post) :
    lookupA (executePlan tools tr tm0 p).report.results task.id =
      some condSkipRecord ∧
    task.id ∈ (executePlan tools tr tm0 p).report.completed_tasks ∧
    task.id ∉ (executePlan tools tr tm0 p).report.failed_tasks ∧
    (∀ e ∈ (executePlan tools tr tm0 p).history, e.taskId ≠ task.id) := by
  have hstep := execTask_condSkip tools tr p.stop_on_failure s task c hdepsOk
    hcond hfalse
  have hrun : runTasks tools tr p.stop_on_failure (initState tm0) p.tasks =
      runTasks tools tr p.stop_on_failure
        { s with results := insertA s.results task.id condSkipRecord,
                 completed := s.completed ++ [task.id] } post := by
    rw [hplan, runTasks_append, hpre]
    simp only [runTasks, hstep]
  rw [executePlan_run tools tr tm0 p hvalid hperm, hrun]
  obtain ⟨fr, fc, ff, fh, fmc, fmf⟩ := runTasks_frame tools tr p.stop_on_failure post
    { s with results := insertA s.results task.id condSkipRecord,
             completed := s.completed ++ [task.id] }
  obtain ⟨fr0, fc0, ff0, fh0, fmc0, fmf0⟩ :=
    runTasks_frame tools tr p.stop_on_failure pre (initState tm0)
  rw [hpre] at fh0 ff0
  refine ⟨?_, ?_, ?_, ?_⟩
  · rw [runOutcome_results, fr task.id hfresh2]
    exact lookupA_insertA_self s.results task.id condSkipRecord
  · rw [runOutcome_completed]
    exact fmc task.id (List.mem_append_right _ (List.mem_singleton.2 rfl))
  · rw [runOutcome_failed]
    intro hmem
    have h1 := (ff task.id hfresh2).1 hmem
    have h2 := (ff0 task.id hfresh1).1 h1
    cases h2
  · rw [runOutcome_history]
    intro e he
    rcases fh e he with h1 | h1
    · rcases fh0 e h1 with h2 | h2
      · cases h2
      · intro heq
        rw [heq] at h2
        exact hfresh1 h2
    · intro heq
      rw [heq] at h1
      exact hfresh2 h1

/-- Claim C1 as amended: with `stop_on_failure`, the loop halts only
when a task fails AT TOOL DISPATCH (the `.stop` outcome): after such a
break no later-declared task gains a `results` entry.  A task failing
the DEPENDENCY CHECK is appended to `failed_tasks` but yields `.next` —
the loop continues regardless of `stop_on_failure` (second conjunct),
which is what refutes the claim as stated. -/
theorem c1_stop_only_at_dispatch_failure :
    (∀ (tools : List (String × ToolCap)) (tr : TrustOracle) (tm0 : TMState)
       (p : Plan) (pre post : List TaskSpec) (task t1 : TaskSpec)
       (s s1 : PState),
      p.tasks = pre ++ task :: post →
      validatePlan tools p = Option.none →
      (collectPermissionOperations tools p = [] ∨
        requestPlanPermissions tr (collectPermissionOperations tools p) = true) →
      runTasks tools tr p.stop_on_failure (initState tm0) pre = .ok s →
      execTask tools tr p.stop_on_failure s task = .stop s1 →
      t1 ∈ post → t1.id ∉ idsOf pre → t1.id ≠ task.id →
      lookupA (executePlan tools tr tm0 p).report.results t1.id = Option.none) ∧
    (∀ (tools : List (String × ToolCap)) (tr : TrustOracle) (stop : Bool)
       (s : PState) (task : TaskSpec) (ds : List String),
      task.depends_on = some ds → depsMet s ds = false →
      execTask tools tr stop s task = .next { s with
        failed := s.failed ++ [task.id],
        results := insertA s.results task.id depFailRecord }) := by
  constructor
  · intro tools tr tm0 p pre post task t1 s s1 hplan hvalid hperm hpre hstep
      ht1 hf1 hf2
    have hrun : runTasks tools tr p.stop_on_failure (initState tm0) p.tasks =
        .broke s1 := by
      rw [hplan, runTasks_append, hpre]
      simp only [runTasks, hstep]
    rw [executePlan_run tools tr tm0 p hvalid hperm, hrun, runOutcome_results]
    show lookupA s1.results t1.id = Option.none
    have hframe := execTask_frame tools tr p.stop_on_failure s task
    rw [hstep] at hframe
    obtain ⟨fr, _, _, _, _, _⟩ := hframe
    obtain ⟨fr0, _, _, _, _, _⟩ :=
      runTasks_frame tools tr p.stop_on_failure pre (initState tm0)
    rw [hpre] at fr0
    have h1 : lookupA s1.results t1.id = lookupA s.results t1.id :=
      fr t1.id hf2
    have h2 : lookupA s.results t1.id = lookupA (initState tm0).results t1.id :=
      fr0 t1.id hf1
    rw [h1, h2]
    rfl
  · intro tools tr stop s task ds hdeps hdm
    exact execTask_depFail tools tr stop s task ds hdeps hdm

/-- Claim C8: for a plan that passes validation and contains a task
whose tool requires confirmation, a denied batched permission request
(trust manager present, batch prompt answered false) aborts the plan
before any task runs: the report is {success: false, error:
"Permission denied for task plan operations"} with empty
results/completed/failed, no history, and an untouched tool-manager
state (no capability invoked). -/
theorem c8_batch_denial_aborts_plan
    (tools : List (String × ToolCap)) (tr : TrustOracle) (tm0 : TMState)
    (p : Plan) (t : TaskSpec) (cap : ToolCap)
    (hvalid : validatePlan tools p = Option.none)
    (ht : t ∈ p.tasks)
    (hcap : lookupA tools t.tool_name = some cap)
    (hconf : cap.requires_confirmation = true)
    (hpresent : tr.present = true)
    (hdeny : tr.promptParallel = false) :
    executePlan tools tr tm0 p =
      { report := permissionDeniedReport p, history := [], tm := tm0 } ∧
    (executePlan tools tr tm0 p).tm.invocations = tm0.invocations := by
  have hmem : permOpFor t ∈ collectPermissionOperations tools p := by
    unfold collectPermissionOperations
    apply List.mem_filterMap.2
    refine ⟨t, ht, ?_⟩
    rw [hcap]
    simp [hconf]
  have hops : collectPermissionOperations tools p ≠ [] := by
    intro hnil
    rw [hnil] at hmem
    cases hmem
  have hie : (collectPermissionOperations tools p).isEmpty = false := by
    simpa using hops
  have hreq : requestPlanPermissions tr
      (collectPermissionOperations tools p) = false := by
    unfold requestPlanPermissions
    simp [hie, hpresent, hdeny]
  have hmain : executePlan tools tr tm0 p =
      { report := permissionDeniedReport p, history := [], tm := tm0 } := by
    unfold executePlan
    rw [hvalid]
    simp [hie, hreq]
  exact ⟨hmain, by rw [hmain]⟩

/-- Claim C1 counterexample: in `c1Plan` (with `stop_on_failure = true`)
the first task `b` fails at the dependency check (its dependency `a` is
declared after it) and is appended to `failed_tasks`, yet the
later-declared task `a` still runs and gains a `results` entry — the
loop did not terminate at the first recorded failure. -/
theorem c1_counterexample :
    c1Plan.stop_on_failure = true ∧
    validatePlan fixTools c1Plan = Option.none ∧
    idsOf c1Plan.tasks = ["b", "a"] ∧
    (executePlan fixTools fixTrust tmEmpty c1Plan).report.failed_tasks = ["b"] ∧
    lookupA (executePlan fixTools fixTrust tmEmpty c1Plan).report.results "b" =
      some depFailRecord ∧
    lookupA (executePlan fixTools fixTrust tmEmpty c1Plan).report.results "a" =
      some (Value.dict [("success", Value.bool true)]) :=
  ⟨rfl, rfl, rfl, rfl, rfl, rfl⟩

/-- Claim C1 witness: in `c1wPlan`, task `x` fails at tool dispatch with
`stop_on_failure` set, and the later-declared task `c` gains no
`results` entry. -/
theorem c1_stop_only_at_dispatch_failure_witness :
    c1wPlan.stop_on_failure = true ∧
    validatePlan fixTools c1wPlan = Option.none ∧
    lookupA (executePlan fixTools fixTrust tmEmpty c1wPlan).report.results "c" =
      Option.none :=
  ⟨rfl, rfl,
   c1_stop_only_at_dispatch_failure.1 fixTools fixTrust tmEmpty c1wPlan []
     [mkTask "c" "t"] (mkTask "x" "f") (mkTask "c" "t") (initState tmEmpty)
     ((execTask fixTools fixTrust c1wPlan.stop_on_failure (initState tmEmpty)
        (mkTask "x" "f")).state)
     rfl rfl (Or.inl rfl) rfl rfl
     (show mkTask "c" "t" ∈ [mkTask "c" "t"] from List.mem_singleton.2 rfl)
     (by simp [idsOf]) (by decide)⟩

/-- Claim C2 witness: in `c2Plan`, task `b` is reached with its
dependency `a` not yet completed; its result is the dependency-failure
record, it lands in `failed_tasks`, and no history entry carries it. -/
theorem c2_unmet_dependencies_recorded_witness :
    lookupA (executePlan fixTools fixTrust tmEmpty c2Plan).report.results "b" =
      some depFailRecord ∧
    "b" ∈ (executePlan fixTools fixTrust tmEmpty c2Plan).report.failed_tasks ∧
    (∀ e ∈ (executePlan fixTools fixTrust tmEmpty c2Plan).history,
      e.taskId ≠ "b") :=
  c2_unmet_dependencies_recorded fixTools fixTrust tmEmpty c2Plan []
    [mkTask "a" "t"] { mkTask "b" "t" with depends_on := some ["a"] }
    (initState tmEmpty) ["a"] "a"
    rfl rfl (Or.inl rfl) rfl rfl (List.mem_singleton.2 rfl)
    (Or.inl (by simp [initState])) (by simp [idsOf]) (by decide)

/-- Claim C3 witness: the spec scenario — `t1` returns `{count: 0}`,
`t2` is gated on `t1.count not_equals 0`; `t2` is recorded as a
non-failing skip, completes, and never invokes its tool. -/
theorem c3_false_condition_skips_witness :
    lookupA (executePlan fixTools fixTrust tmEmpty c3Plan).report.results "t2" =
      some condSkipRecord ∧
    "t2" ∈ (executePlan fixTools fixTrust tmEmpty c3Plan).report.completed_tasks ∧
    "t2" ∉ (executePlan fixTools fixTrust tmEmpty c3Plan).report.failed_tasks ∧
    (∀ e ∈ (executePlan fixTools fixTrust tmEmpty c3Plan).history,
      e.taskId ≠ "t2") :=
  c3_false_condition_skips fixTools fixTrust tmEmpty c3Plan [mkTask "t1" "c"]
    [] { mkTask "t2" "t" with condition := some c3Cond } c3State c3Cond
    rfl rfl (Or.inl rfl) rfl (Or.inl rfl) rfl rfl
    (by decide) (by simp [idsOf])

/-- Claim C8 witness: `c8Plan`'s single task uses the
confirmation-requiring tool `w`; with the batch prompt denied the plan
aborts with the permission-denied report and nothing invoked. -/
theorem c8_batch_denial_aborts_plan_witness :
    validatePlan fixTools c8Plan = Option.none ∧
    fixConfirmTool.requires_confirmation = true ∧
    fixDenyTrust.present = true ∧
    fixDenyTrust.promptParallel = false ∧
    executePlan fixTools fixDenyTrust tmEmpty c8Plan =
      { report := permissionDeniedReport c8Plan, history := [], tm := tmEmpty } :=
  ⟨rfl, rfl, rfl, rfl,
   (c8_batch_denial_aborts_plan fixTools fixDenyTrust tmEmpty c8Plan
     (mkTask "w1" "w") fixConfirmTool rfl
     (show mkTask "w1" "w" ∈ [mkTask "w1" "w"] from List.mem_singleton.2 rfl)
     rfl rfl rfl rfl).1⟩
